import Mathlib

/-!
Shallow embedding of the telemetry ingestion core of `my-setup`
(`src/dashboard/src/routes/api/events/+server.ts` and
`src/dashboard/src/lib/server/live.ts`), together with proofs about the
claims of the specification.

Conventions of the embedding:
* machine numbers (token counts, costs) are modelled as `Int`;
* timestamps are `Int` (epoch milliseconds); `Date` parsing is an abstract
  function `parse : String → Option Int` (`none` = `Invalid Date`);
* SQL tables are lists of rows; `INSERT .. ON CONFLICT DO UPDATE` over a
  unique key is `upsertBy` (update the first matching row, else append);
  `UPDATE .. WHERE` is `updateWhere` (update every matching row);
  `SELECT .. LIMIT 1` is `List.find?`;
* each database round-trip consults a failure oracle `oracle : Nat → Bool`
  indexed by the position of the call inside one handler invocation; a
  failing call performs no write and the surrounding `try/catch` turns it
  into the HTTP-500 `storeFailure` response, keeping whatever state the
  earlier calls already committed;
* JavaScript string truthiness (`!event.field`) is modelled by comparison
  with `""`; optional JSON fields are `Option`.
-/

namespace MySetup

/-! ### Generic list-as-table operations -/

/-- Model of `INSERT .. ON CONFLICT DO UPDATE`: update the first row matching `p`
(the conflict target is a unique key), otherwise append the fresh row. -/
def upsertBy {α : Type} (p : α → Bool) (upd : α → α) (fresh : α) : List α → List α
  | [] => [fresh]
  | x :: xs => if p x then upd x :: xs else x :: upsertBy p upd fresh xs

/-- Model of `UPDATE .. SET .. WHERE p`: update every row matching `p`. -/
def updateWhere {α : Type} (p : α → Bool) (f : α → α) (l : List α) : List α :=
  l.map fun x => if p x then f x else x

/-- Sum of a numeric column over a table. -/
def sumBy {α : Type} (f : α → Int) (l : List α) : Int :=
  (l.map f).sum

/-! ### Data model (`src/dashboard/src/lib/db/schema.ts`) -/

/-- A row of the `requests` table; one row per model invocation,
`messageId` unique. -/
structure RequestRow where
  messageId : String
  sessionId : String
  providerId : String
  modelId : String
  agent : String
  tokensInput : Int
  tokensOutput : Int
  tokensReasoning : Int
  tokensCacheRead : Int
  tokensCacheWrite : Int
  costUsd : Int
  durationMs : Option Int
  finishReason : Option String
  workingDir : Option String
  createdAt : Int
  completedAt : Option Int
deriving Repr, DecidableEq

/-- A row of the `sessions` table; `sessionId` is the primary key. -/
structure SessionRow where
  sessionId : String
  projectDir : Option String
  title : Option String
  firstRequestAt : Option Int
  lastRequestAt : Option Int
  totalRequests : Int
  totalCostUsd : Int
  totalTokensInput : Int
  totalTokensOutput : Int
deriving Repr, DecidableEq

/-- A row of the `daily_summary` table; `(date, providerId, modelId)` is a
unique key.  The `date` field holds the calendar day (see `dayOf`). -/
structure DailyRow where
  date : Int
  providerId : String
  modelId : String
  requestCount : Int
  tokensInput : Int
  tokensOutput : Int
  tokensReasoning : Int
  tokensCacheRead : Int
  tokensCacheWrite : Int
  costUsd : Int
deriving Repr, DecidableEq

/-- A row of the `turns` table; `userMessageId` and `assistantMessageId`
are unique (nullable) keys; `id` is the serial primary key. -/
structure TurnRow where
  id : Nat
  sessionId : String
  userMessageId : Option String
  assistantMessageId : Option String
  agent : Option String
  providerId : Option String
  modelId : Option String
  prompt : String
  assistantText : Option String
  tokensInput : Int
  tokensOutput : Int
  tokensReasoning : Int
  tokensCacheRead : Int
  tokensCacheWrite : Int
  costUsd : Int
  durationMs : Option Int
  finishReason : Option String
  createdAt : Int
  completedAt : Option Int
deriving Repr, DecidableEq

/-- A row of the `tool_calls` table; `callId` unique, `id` serial. -/
structure ToolCallRow where
  id : Nat
  sessionId : String
  turnId : Option Nat
  callId : String
  tool : String
  args : Option String
  title : Option String
  output : Option String
  metadata : Option String
  durationMs : Option Int
  success : Option Bool
  errorMessage : Option String
  startedAt : Int
  completedAt : Option Int
deriving Repr, DecidableEq

/-- A row of the `assistant_text_parts` table; `(messageId, partId)` is a
unique key. -/
structure TextPartRow where
  sessionId : String
  messageId : String
  partId : String
  text : String
  createdAt : Int
deriving Repr, DecidableEq

/-- A row of the append-only `file_edits` table. -/
structure FileEditRow where
  sessionId : String
  turnId : Option Nat
  toolCallId : Option Nat
  filePath : String
  fileExtension : Option String
  operation : String
  linesAdded : Int
  linesRemoved : Int
  createdAt : Int
deriving Repr, DecidableEq

/-- The aggregate store.  `nextId` models the serial id sequence used for
`turns.id` and `tool_calls.id`. -/
structure DB where
  requests : List RequestRow
  sessions : List SessionRow
  daily : List DailyRow
  turns : List TurnRow
  toolCalls : List ToolCallRow
  textParts : List TextPartRow
  fileEdits : List FileEditRow
  nextId : Nat
deriving Repr, DecidableEq

/-- The empty store. -/
def emptyDB : DB :=
  { requests := [], sessions := [], daily := [], turns := [], toolCalls := []
    textParts := [], fileEdits := [], nextId := 0 }

/-! ### Events (`+server.ts` type declarations) -/

/-- The nested `tokens` object of a request event. -/
structure Tokens where
  input : Int
  output : Int
  reasoning : Int
  cacheRead : Int
  cacheWrite : Int
deriving Repr, DecidableEq

/-- A `request` telemetry event. -/
structure ReqEvent where
  messageId : String
  sessionId : String
  providerId : String
  modelId : String
  agent : String
  tokens : Tokens
  cost : Int
  durationMs : Option Int
  finishReason : Option String
  workingDir : Option String
  createdAt : Option String
  completedAt : Option String
deriving Repr, DecidableEq

/-- A `prompt` telemetry event. -/
structure PromptEvent where
  sessionId : String
  messageId : String
  prompt : String
  agent : Option String
  providerId : Option String
  modelId : Option String
  createdAt : Option String
deriving Repr, DecidableEq

/-- A `tool.before` telemetry event. -/
structure ToolBeforeEvent where
  sessionId : String
  callId : String
  tool : String
  args : Option String
  createdAt : Option String
deriving Repr, DecidableEq

/-- A `tool.after` telemetry event. -/
structure ToolAfterEvent where
  sessionId : String
  callId : String
  tool : String
  title : String
  output : String
  metadata : Option String
  durationMs : Option Int
  success : Option Bool
  errorMessage : Option String
  createdAt : Option String
deriving Repr, DecidableEq

/-- A `file.edit` telemetry event. -/
structure FileEditEvent where
  sessionId : String
  toolCallId : String
  filePath : String
  fileExtension : Option String
  operation : String
  linesAdded : Option Int
  linesRemoved : Option Int
  createdAt : Option String
deriving Repr, DecidableEq

/-- An `assistant.text` telemetry event. -/
structure TextEvent where
  sessionId : String
  messageId : String
  partId : String
  text : String
  createdAt : Option String
deriving Repr, DecidableEq

/-- The six event kinds dispatched by the `POST` handler. -/
inductive Event where
  | prompt (e : PromptEvent)
  | toolBefore (e : ToolBeforeEvent)
  | toolAfter (e : ToolAfterEvent)
  | fileEdit (e : FileEditEvent)
  | text (e : TextEvent)
  | request (e : ReqEvent)
deriving Repr, DecidableEq

/-- The responses the handler can produce for a decoded event. -/
inductive Response where
  | ok
  | validationError
  | storeFailure
deriving Repr, DecidableEq

/-! ### Timestamps -/

/-- Model of `timestamp.toISOString().split('T')[0]`: the calendar day of an epoch
timestamp (86400000 ms per day). -/
def dayOf (t : Int) : Int :=
  t / 86400000

/-- Model of `coerceDate` (`+server.ts` lines 105-109): a missing or empty or
unparseable input yields the current server time. -/
def coerceDate (parse : String → Option Int) (now : Int) : Option String → Int
  | none => now
  | some s =>
    if s = "" then now
    else match parse s with
      | some t => t
      | none => now

/-- The timestamp of a request event:
`event.createdAt ? new Date(event.createdAt) : now`.  A present but
unparseable value makes `timestamp.toISOString()` throw (`none`). -/
def tsOfReq (parse : String → Option Int) (now : Int) (e : ReqEvent) : Option Int :=
  match e.createdAt with
  | none => some now
  | some s => if s = "" then some now else parse s

/-- The oracle describing a store in which every round-trip succeeds. -/
def noFail : Nat → Bool := fun _ => false

/-! ### `prompt` handler (`+server.ts` lines 141-194) -/

/-- Model of `event.prompt.trim().slice(0, 120) || null`. -/
def promptTitle (p : String) : Option String :=
  let t := (p.trim).take 120
  if t = "" then none else some t

/-- The sessions upsert performed by the prompt handler: `GREATEST` for
`lastRequestAt`, `COALESCE` for `firstRequestAt` and `title`. -/
def sessionTouch (sid : String) (title : Option String) (ts : Int)
    (l : List SessionRow) : List SessionRow :=
  upsertBy (fun s => s.sessionId == sid)
    (fun s =>
      { s with
        lastRequestAt := some (match s.lastRequestAt with
          | none => ts
          | some v => max v ts)
        firstRequestAt := some (match s.firstRequestAt with
          | none => ts
          | some v => v)
        title := match s.title with
          | none => title
          | some t => some t })
    { sessionId := sid, projectDir := none, title := title
      firstRequestAt := some ts, lastRequestAt := some ts
      totalRequests := 0, totalCostUsd := 0
      totalTokensInput := 0, totalTokensOutput := 0 }
    l

/-- The fresh turn row inserted by the prompt handler. -/
def promptTurnFresh (e : PromptEvent) (ts : Int) (id : Nat) : TurnRow :=
  { id := id, sessionId := e.sessionId, userMessageId := some e.messageId
    assistantMessageId := none, agent := e.agent, providerId := e.providerId
    modelId := e.modelId, prompt := e.prompt, assistantText := none
    tokensInput := 0, tokensOutput := 0, tokensReasoning := 0
    tokensCacheRead := 0, tokensCacheWrite := 0, costUsd := 0
    durationMs := none, finishReason := none, createdAt := ts
    completedAt := none }

/-- The `prompt` handler. -/
def processPrompt (parse : String → Option Int) (oracle : Nat → Bool) (now : Int)
    (e : PromptEvent) (db : DB) : Response × DB :=
  if e.sessionId = "" ∨ e.messageId = "" ∨ e.prompt = "" then (.validationError, db)
  else
    let ts := coerceDate parse now e.createdAt
    if oracle 0 then (.storeFailure, db) else
    let db1 := { db with sessions := sessionTouch e.sessionId (promptTitle e.prompt) ts db.sessions }
    if oracle 1 then (.storeFailure, db1) else
    let inserted := (db1.turns.find? (fun t => t.userMessageId == some e.messageId)).isNone
    let db2 :=
      { db1 with
        turns := upsertBy (fun t => t.userMessageId == some e.messageId)
          (fun t => { t with prompt := e.prompt, createdAt := ts })
          (promptTurnFresh e ts db1.nextId) db1.turns
        nextId := if inserted then db1.nextId + 1 else db1.nextId }
    (.ok, db2)

/-! ### Open-turn lookup (shared by several handlers) -/

/-- Model of `ORDER BY created_at DESC LIMIT 1` over a filtered turn list. -/
def pickLatest : List TurnRow → Option TurnRow
  | [] => none
  | t :: ts =>
    match pickLatest ts with
    | none => some t
    | some b => if b.createdAt > t.createdAt then some b else some t

/-- The session's currently open turn: the most recently created turn of
the session whose `assistantMessageId` is still null. -/
def openTurn (db : DB) (sid : String) : Option TurnRow :=
  pickLatest (db.turns.filter (fun t => t.sessionId == sid && t.assistantMessageId.isNone))

/-! ### `tool.before` handler (`+server.ts` lines 196-239) -/

/-- The `tool.before` handler: looks up the open turn, then upserts the
tool call row by `callId`, stamping the open turn id (or null). -/
def processToolBefore (parse : String → Option Int) (oracle : Nat → Bool) (now : Int)
    (e : ToolBeforeEvent) (db : DB) : Response × DB :=
  if e.sessionId = "" ∨ e.callId = "" ∨ e.tool = "" then (.validationError, db)
  else
    let ts := coerceDate parse now e.createdAt
    if oracle 0 then (.storeFailure, db) else
    let turnId := (openTurn db e.sessionId).map (fun t => t.id)
    if oracle 1 then (.storeFailure, db) else
    let inserted := (db.toolCalls.find? (fun c => c.callId == e.callId)).isNone
    let db1 :=
      { db with
        toolCalls := upsertBy (fun c => c.callId == e.callId)
          (fun c => { c with sessionId := e.sessionId, turnId := turnId
                             tool := e.tool, args := e.args, startedAt := ts })
          { id := db.nextId, sessionId := e.sessionId, turnId := turnId
            callId := e.callId, tool := e.tool, args := e.args
            title := none, output := none, metadata := none
            durationMs := none, success := none, errorMessage := none
            startedAt := ts, completedAt := none }
          db.toolCalls
        nextId := if inserted then db.nextId + 1 else db.nextId }
    (.ok, db1)

/-! ### `tool.after` handler (`+server.ts` lines 241-287) -/

/-- The `tool.after` handler: upserts by `callId`; the insert supplies no
turn id and the conflict update does not touch it. -/
def processToolAfter (parse : String → Option Int) (oracle : Nat → Bool) (now : Int)
    (e : ToolAfterEvent) (db : DB) : Response × DB :=
  if e.sessionId = "" ∨ e.callId = "" ∨ e.tool = "" then (.validationError, db)
  else
    let ts := coerceDate parse now e.createdAt
    if oracle 0 then (.storeFailure, db) else
    let inserted := (db.toolCalls.find? (fun c => c.callId == e.callId)).isNone
    let db1 :=
      { db with
        toolCalls := upsertBy (fun c => c.callId == e.callId)
          (fun c => { c with title := some e.title, output := some e.output
                             metadata := e.metadata, durationMs := e.durationMs
                             success := e.success, errorMessage := e.errorMessage
                             completedAt := some ts })
          { id := db.nextId, sessionId := e.sessionId, turnId := none
            callId := e.callId, tool := e.tool, args := none
            title := some e.title, output := some e.output
            metadata := e.metadata, durationMs := e.durationMs
            success := e.success, errorMessage := e.errorMessage
            startedAt := ts, completedAt := some ts }
          db.toolCalls
        nextId := if inserted then db.nextId + 1 else db.nextId }
    (.ok, db1)

/-! ### `file.edit` handler (`+server.ts` lines 289-339) -/

/-- The unconditional insert of one `file_edits` row. -/
def insertFileEdit (e : FileEditEvent) (ts : Int) (tcId : Option Nat)
    (turnId : Option Nat) (db : DB) : DB :=
  { db with
    fileEdits := db.fileEdits ++
      [{ sessionId := e.sessionId, turnId := turnId, toolCallId := tcId
         filePath := e.filePath, fileExtension := e.fileExtension
         operation := e.operation, linesAdded := e.linesAdded.getD 0
         linesRemoved := e.linesRemoved.getD 0, createdAt := ts }] }

/-- Tail of the `file.edit` handler after the optional tool-call lookup:
open-turn select (op `k`) then the insert (op `k + 1`). -/
def fileEditFinish (oracle : Nat → Bool) (k : Nat) (e : FileEditEvent) (ts : Int)
    (tcId : Option Nat) (db : DB) : Response × DB :=
  if oracle k then (.storeFailure, db) else
  let turnId := (openTurn db e.sessionId).map (fun t => t.id)
  if oracle (k + 1) then (.storeFailure, db) else
  (.ok, insertFileEdit e ts tcId turnId db)

/-- The `file.edit` handler. -/
def processFileEdit (parse : String → Option Int) (oracle : Nat → Bool) (now : Int)
    (e : FileEditEvent) (db : DB) : Response × DB :=
  if e.sessionId = "" ∨ e.filePath = "" ∨ e.operation = "" then (.validationError, db)
  else
    let ts := coerceDate parse now e.createdAt
    if e.toolCallId = "" then
      fileEditFinish oracle 0 e ts none db
    else
      if oracle 0 then (.storeFailure, db) else
      let tcId := (db.toolCalls.find? (fun c => c.callId == e.toolCallId)).map (fun c => c.id)
      fileEditFinish oracle 1 e ts tcId db

/-! ### `assistant.text` handler (`+server.ts` lines 341-379) -/

/-- Insert a part into a createdAt-sorted list, before the first strictly
later part (stable with respect to the stored order). -/
def insertSorted (r : TextPartRow) : List TextPartRow → List TextPartRow
  | [] => [r]
  | x :: xs => if r.createdAt ≤ x.createdAt then r :: x :: xs else x :: insertSorted r xs

/-- Model of `ORDER BY created_at` over the part list. -/
def sortByCreated (l : List TextPartRow) : List TextPartRow :=
  l.foldr insertSorted []

/-- Re-read all parts of a message in creation order and join their text
with newlines (`parts.map(p => p.text).join('\n')`). -/
def reconstructText (parts : List TextPartRow) (mid : String) : String :=
  String.intercalate "\n"
    ((sortByCreated (parts.filter (fun r => r.messageId == mid))).map (fun r => r.text))

/-- The `assistant.text` handler: insert-or-ignore by
`(messageId, partId)`, then overwrite the cached turn text. -/
def processText (parse : String → Option Int) (oracle : Nat → Bool) (now : Int)
    (e : TextEvent) (db : DB) : Response × DB :=
  if e.sessionId = "" ∨ e.messageId = "" ∨ e.partId = "" ∨ e.text = "" then
    (.validationError, db)
  else
    let ts := coerceDate parse now e.createdAt
    if oracle 0 then (.storeFailure, db) else
    let dup := (db.textParts.find?
      (fun r => r.messageId == e.messageId && r.partId == e.partId)).isSome
    let db1 :=
      if dup then db
      else { db with textParts := db.textParts ++
        [{ sessionId := e.sessionId, messageId := e.messageId, partId := e.partId
           text := e.text, createdAt := ts }] }
    if oracle 1 then (.storeFailure, db1) else
    let fullText := reconstructText db1.textParts e.messageId
    if oracle 2 then (.storeFailure, db1) else
    (.ok, { db1 with
      turns := updateWhere (fun t => t.assistantMessageId == some e.messageId)
        (fun t => { t with assistantText := some fullText }) db1.turns })

/-! ### `request` handler (`+server.ts` lines 381-569) -/

/-- The component-wise difference between an incoming request event and
the stored request row (`delta* = event − (existing || 0)`). -/
structure Delta where
  input : Int
  output : Int
  reasoning : Int
  cacheRead : Int
  cacheWrite : Int
  cost : Int
deriving Repr, DecidableEq

/-- Delta computation of the existing-record branch. -/
def deltaOf (e : ReqEvent) (old : RequestRow) : Delta :=
  { input := e.tokens.input - old.tokensInput
    output := e.tokens.output - old.tokensOutput
    reasoning := e.tokens.reasoning - old.tokensReasoning
    cacheRead := e.tokens.cacheRead - old.tokensCacheRead
    cacheWrite := e.tokens.cacheWrite - old.tokensCacheWrite
    cost := e.cost - old.costUsd }

/-- The conflict update of the requests upsert: replace the measurement
columns, keep the identity columns and `createdAt`. -/
def requestUpd (parse : String → Option Int) (e : ReqEvent) (r : RequestRow) : RequestRow :=
  { r with
    tokensInput := e.tokens.input, tokensOutput := e.tokens.output
    tokensReasoning := e.tokens.reasoning, tokensCacheRead := e.tokens.cacheRead
    tokensCacheWrite := e.tokens.cacheWrite, costUsd := e.cost
    durationMs := e.durationMs, finishReason := e.finishReason
    completedAt := e.completedAt.bind parse }

/-- The freshly inserted request row. -/
def requestFresh (parse : String → Option Int) (e : ReqEvent) (ts : Int) : RequestRow :=
  { messageId := e.messageId, sessionId := e.sessionId
    providerId := e.providerId, modelId := e.modelId, agent := e.agent
    tokensInput := e.tokens.input, tokensOutput := e.tokens.output
    tokensReasoning := e.tokens.reasoning, tokensCacheRead := e.tokens.cacheRead
    tokensCacheWrite := e.tokens.cacheWrite, costUsd := e.cost
    durationMs := e.durationMs, finishReason := e.finishReason
    workingDir := e.workingDir, createdAt := ts
    completedAt := e.completedAt.bind parse }

/-- First-report branch: add the event's full values to the session row
(insert-or-increment). -/
def sessionApplyFull (e : ReqEvent) (ts : Int) (l : List SessionRow) : List SessionRow :=
  upsertBy (fun s => s.sessionId == e.sessionId)
    (fun s =>
      { s with lastRequestAt := some ts
               totalRequests := s.totalRequests + 1
               totalCostUsd := s.totalCostUsd + e.cost
               totalTokensInput := s.totalTokensInput + e.tokens.input
               totalTokensOutput := s.totalTokensOutput + e.tokens.output })
    { sessionId := e.sessionId, projectDir := e.workingDir, title := none
      firstRequestAt := some ts, lastRequestAt := some ts
      totalRequests := 1, totalCostUsd := e.cost
      totalTokensInput := e.tokens.input, totalTokensOutput := e.tokens.output }
    l

/-- First-report branch: add the event's full values to the daily summary
row of its `(date, provider, model)` key (insert-or-increment). -/
def dailyApplyFull (e : ReqEvent) (day : Int) (l : List DailyRow) : List DailyRow :=
  upsertBy (fun d => d.date == day && d.providerId == e.providerId && d.modelId == e.modelId)
    (fun d =>
      { d with requestCount := d.requestCount + 1
               tokensInput := d.tokensInput + e.tokens.input
               tokensOutput := d.tokensOutput + e.tokens.output
               tokensReasoning := d.tokensReasoning + e.tokens.reasoning
               tokensCacheRead := d.tokensCacheRead + e.tokens.cacheRead
               tokensCacheWrite := d.tokensCacheWrite + e.tokens.cacheWrite
               costUsd := d.costUsd + e.cost })
    { date := day, providerId := e.providerId, modelId := e.modelId
      requestCount := 1
      tokensInput := e.tokens.input, tokensOutput := e.tokens.output
      tokensReasoning := e.tokens.reasoning, tokensCacheRead := e.tokens.cacheRead
      tokensCacheWrite := e.tokens.cacheWrite, costUsd := e.cost }
    l

/-- Existing-record branch: add the delta to the daily summary row of the
event's key (plain `UPDATE`; `requestCount` untouched). -/
def dailyApplyDelta (day : Int) (pid mid : String) (d : Delta)
    (l : List DailyRow) : List DailyRow :=
  updateWhere (fun r => r.date == day && r.providerId == pid && r.modelId == mid)
    (fun r =>
      { r with tokensInput := r.tokensInput + d.input
               tokensOutput := r.tokensOutput + d.output
               tokensReasoning := r.tokensReasoning + d.reasoning
               tokensCacheRead := r.tokensCacheRead + d.cacheRead
               tokensCacheWrite := r.tokensCacheWrite + d.cacheWrite
               costUsd := r.costUsd + d.cost })
    l

/-- Existing-record branch: add the delta to the session row (plain
`UPDATE`; `totalRequests` untouched). -/
def sessionApplyDelta (sid : String) (d : Delta) (ts : Int)
    (l : List SessionRow) : List SessionRow :=
  updateWhere (fun s => s.sessionId == sid)
    (fun s =>
      { s with totalCostUsd := s.totalCostUsd + d.cost
               totalTokensInput := s.totalTokensInput + d.input
               totalTokensOutput := s.totalTokensOutput + d.output
               lastRequestAt := some ts })
    l

/-- Stamp the request's measurements onto a turn and close it by setting
`assistantMessageId`. -/
def turnClose (parse : String → Option Int) (e : ReqEvent) (tid : Nat)
    (l : List TurnRow) : List TurnRow :=
  updateWhere (fun t => t.id == tid)
    (fun t =>
      { t with assistantMessageId := some e.messageId
               agent := some e.agent, providerId := some e.providerId
               modelId := some e.modelId
               tokensInput := e.tokens.input, tokensOutput := e.tokens.output
               tokensReasoning := e.tokens.reasoning
               tokensCacheRead := e.tokens.cacheRead
               tokensCacheWrite := e.tokens.cacheWrite
               costUsd := e.cost, durationMs := e.durationMs
               finishReason := e.finishReason
               completedAt := e.completedAt.bind parse })
    l

/-- The tail of the `request` handler shared by all branches: locate the
open turn (op `k`) and, if one exists, close it (op `k + 1`). -/
def finishTurn (parse : String → Option Int) (oracle : Nat → Bool) (k : Nat)
    (e : ReqEvent) (db : DB) : Response × DB :=
  if oracle k then (.storeFailure, db) else
  match openTurn db e.sessionId with
  | none => (.ok, db)
  | some t =>
    if oracle (k + 1) then (.storeFailure, db) else
    (.ok, { db with turns := turnClose parse e t.id db.turns })

/-- The `request` handler (the Delta Engine). -/
def processRequest (parse : String → Option Int) (oracle : Nat → Bool) (now : Int)
    (e : ReqEvent) (db : DB) : Response × DB :=
  if e.messageId = "" ∨ e.sessionId = "" ∨ e.providerId = "" ∨ e.modelId = "" then
    (.validationError, db)
  else
    match tsOfReq parse now e with
    | none => (.storeFailure, db)
    | some ts =>
      let day := dayOf ts
      if oracle 0 then (.storeFailure, db) else
      let existing := db.requests.find? (fun r => r.messageId == e.messageId)
      if oracle 1 then (.storeFailure, db) else
      let reqs := upsertBy (fun r => r.messageId == e.messageId)
        (requestUpd parse e) (requestFresh parse e ts) db.requests
      let db1 := { db with requests := reqs }
      match existing with
      | none =>
        if oracle 2 then (.storeFailure, db1) else
        let db2 := { db1 with sessions := sessionApplyFull e ts db1.sessions }
        if oracle 3 then (.storeFailure, db2) else
        let db3 := { db2 with daily := dailyApplyFull e day db2.daily }
        finishTurn parse oracle 4 e db3
      | some old =>
        let d := deltaOf e old
        if d.cost ≠ 0 ∨ d.input ≠ 0 ∨ d.output ≠ 0 then
          if oracle 2 then (.storeFailure, db1) else
          let db2 := { db1 with daily := dailyApplyDelta day e.providerId e.modelId d db1.daily }
          if oracle 3 then (.storeFailure, db2) else
          let db3 := { db2 with sessions := sessionApplyDelta e.sessionId d ts db2.sessions }
          finishTurn parse oracle 4 e db3
        else
          finishTurn parse oracle 2 e db1

/-- The event router: dispatch to the kind-specific handler. -/
def processEvent (parse : String → Option Int) (oracle : Nat → Bool) (now : Int)
    (ev : Event) (db : DB) : Response × DB :=
  match ev with
  | .prompt e => processPrompt parse oracle now e db
  | .toolBefore e => processToolBefore parse oracle now e db
  | .toolAfter e => processToolAfter parse oracle now e db
  | .fileEdit e => processFileEdit parse oracle now e db
  | .text e => processText parse oracle now e db
  | .request e => processRequest parse oracle now e db

/-- Serial application of request events, each with its own server clock
value, against a fault-free store. -/
def runRequests (parse : String → Option Int) (steps : List (Int × ReqEvent))
    (db : DB) : DB :=
  steps.foldl (fun s p => (processRequest parse noFail p.1 p.2 s).2) db

/-! ### Live Broadcast Hub (`src/dashboard/src/lib/server/live.ts`) -/

/-- A live subscriber: `broken` models a controller whose `enqueue`
throws (disconnected consumer); `received` the delivered payloads. -/
structure Subscriber where
  id : Nat
  broken : Bool
  received : List String
deriving Repr, DecidableEq

/-- Model of `controller.enqueue(encoder.encode(payload))`: delivery to one
subscriber, which may throw. -/
def send (sub : Subscriber) (payload : String) : Except Unit Subscriber :=
  if sub.broken then .error () else .ok { sub with received := sub.received ++ [payload] }

/-- The `for (const sub of subscribers) { try { send(...) } catch {} }`
loop: each delivery failure is caught in place. -/
def publishLoop : List Subscriber → String → Except Unit (List Subscriber)
  | [], _ => .ok []
  | s :: rest, p =>
    let s1 := match send s p with
      | .ok s2 => s2
      | .error _ => s
    match publishLoop rest p with
    | .ok rest2 => .ok (s1 :: rest2)
    | .error er => .error er

/-- Model of `publishLiveEvent`: serialize the event and attempt delivery to every
current subscriber. -/
def publishLiveEvent (subs : List Subscriber) (ev : String) : Except Unit (List Subscriber) :=
  publishLoop subs ("data: " ++ ev ++ "\n\n")

/-! ### Specification-level predicates -/

/-- An event has an empty string in one of the string fields the router
declares required for its kind. -/
def HasEmptyRequired : Event → Prop
  | .prompt e => e.sessionId = "" ∨ e.messageId = "" ∨ e.prompt = ""
  | .toolBefore e => e.sessionId = "" ∨ e.callId = "" ∨ e.tool = ""
  | .toolAfter e => e.sessionId = "" ∨ e.callId = "" ∨ e.tool = ""
  | .fileEdit e => e.sessionId = "" ∨ e.filePath = "" ∨ e.operation = ""
  | .text e => e.sessionId = "" ∨ e.messageId = "" ∨ e.partId = "" ∨ e.text = ""
  | .request e => e.messageId = "" ∨ e.sessionId = "" ∨ e.providerId = "" ∨ e.modelId = ""

/-- Replace an event's `createdAt` field. -/
def withCreated : Event → Option String → Event
  | .prompt e, c => .prompt { e with createdAt := c }
  | .toolBefore e, c => .toolBefore { e with createdAt := c }
  | .toolAfter e, c => .toolAfter { e with createdAt := c }
  | .fileEdit e, c => .fileEdit { e with createdAt := c }
  | .text e, c => .text { e with createdAt := c }
  | .request e, c => .request { e with createdAt := c }

/-- The five kinds whose timestamp goes through `coerceDate` (every kind
except `request`). -/
def UsesCoerceDate : Event → Prop
  | .request _ => False
  | _ => True

/-- The parse function of a clock that can parse no date string. -/
def parseNone : String → Option Int := fun _ => none

/-- Sample prompt event used in concrete instantiations. -/
def samplePrompt : PromptEvent :=
  { sessionId := "s1", messageId := "u1", prompt := "fix the bug"
    agent := none, providerId := none, modelId := none, createdAt := none }

/-- Sample file-edit event used in concrete instantiations. -/
def sampleFileEdit : FileEditEvent :=
  { sessionId := "s1", toolCallId := "", filePath := "a.ts"
    fileExtension := some "ts", operation := "edit"
    linesAdded := some 3, linesRemoved := some 1, createdAt := none }

/-! ### C9: empty required string fields are rejected -/

/-! ### C5: turn attribution of child events -/

/-- The store after one prompt event for session `s1`: it has exactly one
open turn, with id 0. -/
def c5db : DB := (processPrompt parseNone noFail 0 samplePrompt emptyDB).2

/-- A `tool.after` event whose `callId` has no prior `tool.before`. -/
def c5after : ToolAfterEvent :=
  { sessionId := "s1", callId := "c1", tool := "bash", title := "t", output := "o"
    metadata := none, durationMs := none, success := none, errorMessage := none
    createdAt := none }

/-! ### C2: the zero-delta skip condition -/

/-- First report for message `m`: reasoning tokens 10, all other tracked
fields zero. -/
def c2e1 : ReqEvent :=
  { messageId := "m", sessionId := "s", providerId := "p", modelId := "d"
    agent := "a"
    tokens := { input := 0, output := 0, reasoning := 10, cacheRead := 0, cacheWrite := 0 }
    cost := 0, durationMs := none, finishReason := none, workingDir := none
    createdAt := none, completedAt := none }

/-- Redelivery of message `m` with reasoning tokens grown to 20 and every
other tracked field unchanged. -/
def c2e2 : ReqEvent := { c2e1 with
  tokens := { input := 0, output := 0, reasoning := 20, cacheRead := 0, cacheWrite := 0 } }

/-- The store after ingesting `c2e1` into an empty store. -/
def c2db : DB := (processRequest parseNone noFail 0 c2e1 emptyDB).2

/-! ### C3: atomicity on store failure -/

/-- A store in which the third round-trip of a handler fails. -/
def c3oracle : Nat → Bool := fun n => n == 2

/-! ### C4: out-of-order redelivery and negative deltas -/

/-- A request event with the given identity, input/output tokens, and
cost (no reasoning or cache tokens, no timestamps). -/
def c4event (mid sid pid modelid ag : String) (inp outp c : Int) : ReqEvent :=
  { messageId := mid, sessionId := sid, providerId := pid, modelId := modelid
    agent := ag
    tokens := { input := inp, output := outp, reasoning := 0, cacheRead := 0
                cacheWrite := 0 }
    cost := c, durationMs := none, finishReason := none, workingDir := none
    createdAt := none, completedAt := none }

/-- Sample assistant text part event. -/
def c6event : TextEvent :=
  { sessionId := "s1", messageId := "am", partId := "b", text := "B"
    createdAt := none }

/-! ### C1: cross-aggregate consistency of the Delta Engine -/

/-- The three measurement components consulted by the skip test. -/
def reqM3 (e : ReqEvent) : Int × Int × Int :=
  (e.cost, e.tokens.input, e.tokens.output)

/-- All six tracked measurement components of a request event. -/
def reqM6 (e : ReqEvent) : Int × Int × Int × Int × Int × Int :=
  (e.tokens.input, e.tokens.output, e.tokens.reasoning, e.tokens.cacheRead,
   e.tokens.cacheWrite, e.cost)

/-- All six tracked measurement columns of a stored request row. -/
def rowM6 (r : RequestRow) : Int × Int × Int × Int × Int × Int :=
  (r.tokensInput, r.tokensOutput, r.tokensReasoning, r.tokensCacheRead,
   r.tokensCacheWrite, r.costUsd)

/-- The timestamp a delivery step would use (its own server clock paired
with the event). -/
def stepTs (parse : String → Option Int) (p : Int × ReqEvent) : Option Int :=
  tsOfReq parse p.1 p.2

/-- Cross-aggregate consistency: every tracked counter sums to the same
value over DailySummary rows and over the stored Request rows, and the
Session running totals agree as well. -/
def Consistent (db : DB) : Prop :=
  sumBy (fun d => d.tokensInput) db.daily = sumBy (fun r => r.tokensInput) db.requests ∧
  sumBy (fun d => d.tokensOutput) db.daily = sumBy (fun r => r.tokensOutput) db.requests ∧
  sumBy (fun d => d.tokensReasoning) db.daily = sumBy (fun r => r.tokensReasoning) db.requests ∧
  sumBy (fun d => d.tokensCacheRead) db.daily = sumBy (fun r => r.tokensCacheRead) db.requests ∧
  sumBy (fun d => d.tokensCacheWrite) db.daily = sumBy (fun r => r.tokensCacheWrite) db.requests ∧
  sumBy (fun d => d.costUsd) db.daily = sumBy (fun r => r.costUsd) db.requests ∧
  sumBy (fun s => s.totalTokensInput) db.sessions = sumBy (fun r => r.tokensInput) db.requests ∧
  sumBy (fun s => s.totalTokensOutput) db.sessions = sumBy (fun r => r.tokensOutput) db.requests ∧
  sumBy (fun s => s.totalCostUsd) db.sessions = sumBy (fun r => r.costUsd) db.requests

/-- The unique indexes of `daily_summary` and `sessions`: at most one row
per key. -/
def UniqueKeys (db : DB) : Prop :=
  (∀ day : Int, ∀ pid mid : String,
    db.daily.countP (fun d => d.date == day && d.providerId == pid &&
      d.modelId == mid) ≤ 1) ∧
  (∀ sid : String, db.sessions.countP (fun s => s.sessionId == sid) ≤ 1)

/-- Every stored request row has a daily-summary row under its own
`(day, provider, model)` key and a session row under its session id. -/
def Covered (db : DB) : Prop :=
  (∀ r ∈ db.requests, 1 ≤ db.daily.countP (fun d => d.date == dayOf r.createdAt &&
    d.providerId == r.providerId && d.modelId == r.modelId)) ∧
  (∀ r ∈ db.requests, 1 ≤ db.sessions.countP (fun s => s.sessionId == r.sessionId))

/-- Every stored request row was produced by one of the delivered steps:
same identity columns, a timestamp on the same calendar day, and exactly
the measurements of that step. -/
def Origin (parse : String → Option Int) (steps : List (Int × ReqEvent)) (db : DB) : Prop :=
  ∀ r ∈ db.requests, ∃ q ∈ steps,
    q.2.messageId = r.messageId ∧ q.2.sessionId = r.sessionId ∧
    q.2.providerId = r.providerId ∧ q.2.modelId = r.modelId ∧
    (∃ t, stepTs parse q = some t ∧ dayOf t = dayOf r.createdAt) ∧
    reqM6 q.2 = rowM6 r

/-- The full inductive invariant of the serial run. -/
def StrongInv (parse : String → Option Int) (steps : List (Int × ReqEvent))
    (db : DB) : Prop :=
  Consistent db ∧ UniqueKeys db ∧ Covered db ∧ Origin parse steps db

/-- Steps reporting the same `messageId` agree on the session, provider,
and model ids and on the calendar day of their timestamps. -/
def SameKeys (parse : String → Option Int) (steps : List (Int × ReqEvent)) : Prop :=
  ∀ p ∈ steps, ∀ q ∈ steps, p.2.messageId = q.2.messageId →
    p.2.sessionId = q.2.sessionId ∧ p.2.providerId = q.2.providerId ∧
    p.2.modelId = q.2.modelId ∧
    (stepTs parse p).map dayOf = (stepTs parse q).map dayOf

/-- Among steps with the same `messageId`, the cost/input/output triple
determines all six tracked measurements. -/
def Determined (steps : List (Int × ReqEvent)) : Prop :=
  ∀ p ∈ steps, ∀ q ∈ steps, p.2.messageId = q.2.messageId →
    reqM3 p.2 = reqM3 q.2 → reqM6 p.2 = reqM6 q.2

/-- Every step carries a usable timestamp (absent or parseable
`createdAt`). -/
def AllParse (parse : String → Option Int) (steps : List (Int × ReqEvent)) : Prop :=
  ∀ p ∈ steps, (stepTs parse p).isSome

instance (db : DB) : Decidable (Consistent db) := by
  unfold Consistent
  infer_instance

instance (parse : String → Option Int) (steps : List (Int × ReqEvent)) :
    Decidable (AllParse parse steps) := by
  unfold AllParse
  infer_instance

instance (parse : String → Option Int) (steps : List (Int × ReqEvent)) :
    Decidable (SameKeys parse steps) := by
  unfold SameKeys
  infer_instance

instance (steps : List (Int × ReqEvent)) : Decidable (Determined steps) := by
  unfold Determined
  infer_instance

/-! ### Generic lemmas about the table operations -/
theorem upsertBy_nil {α : Type} (p : α → Bool) (upd : α → α) (fresh : α) :
    upsertBy p upd fresh [] = [fresh] := rfl

theorem upsertBy_cons {α : Type} (p : α → Bool) (upd : α → α) (fresh x : α)
    (xs : List α) :
    upsertBy p upd fresh (x :: xs) =
      if p x then upd x :: xs else x :: upsertBy p upd fresh xs := rfl

theorem updateWhere_nil {α : Type} (p : α → Bool) (f : α → α) :
    updateWhere p f [] = [] := rfl

theorem updateWhere_cons {α : Type} (p : α → Bool) (f : α → α) (x : α)
    (xs : List α) :
    updateWhere p f (x :: xs) =
      (if p x then f x else x) :: updateWhere p f xs := rfl

theorem sumBy_nil {α : Type} (f : α → Int) : sumBy f [] = 0 := rfl

theorem sumBy_cons {α : Type} (f : α → Int) (x : α) (l : List α) :
    sumBy f (x :: l) = f x + sumBy f l := by
  simp [sumBy]

theorem sumBy_append {α : Type} (f : α → Int) (l1 l2 : List α) :
    sumBy f (l1 ++ l2) = sumBy f l1 + sumBy f l2 := by
  simp [sumBy]

theorem sumBy_upsertBy {α : Type} (f : α → Int) (p : α → Bool) (upd : α → α)
    (fresh : α) : ∀ l : List α,
    sumBy f (upsertBy p upd fresh l) =
      sumBy f l + (match l.find? p with
        | some x => f (upd x) - f x
        | none => f fresh)
  | [] => by simp [upsertBy_nil, sumBy_cons, sumBy_nil]
  | x :: xs => by
    by_cases h : p x
    · rw [upsertBy_cons, if_pos h, List.find?_cons_of_pos xs h]
      rw [sumBy_cons, sumBy_cons]
      ring
    · rw [upsertBy_cons, if_neg h, List.find?_cons_of_neg xs h]
      rw [sumBy_cons, sumBy_cons, sumBy_upsertBy f p upd fresh xs]
      cases List.find? p xs <;> ring

theorem countP_upsertBy {α : Type} (q p : α → Bool) (upd : α → α) (fresh : α)
    (hq : ∀ x, p x = true → q (upd x) = q x) : ∀ l : List α,
    (upsertBy p upd fresh l).countP q =
      l.countP q + (match l.find? p with
        | some _ => 0
        | none => if q fresh then 1 else 0)
  | [] => by simp [upsertBy_nil, List.countP_cons]
  | x :: xs => by
    by_cases h : p x
    · rw [upsertBy_cons, if_pos h, List.find?_cons_of_pos xs h]
      rw [List.countP_cons, List.countP_cons, hq x h]
      simp
    · rw [upsertBy_cons, if_neg h, List.find?_cons_of_neg xs h]
      rw [List.countP_cons, List.countP_cons, countP_upsertBy q p upd fresh hq xs]
      cases List.find? p xs <;> ring

theorem find?_upsertBy {α : Type} (p : α → Bool) (upd : α → α) (fresh : α)
    (hu : ∀ x, p x = true → p (upd x) = true) (hf : p fresh = true) :
    ∀ l : List α,
    (upsertBy p upd fresh l).find? p =
      some (match l.find? p with
        | some x => upd x
        | none => fresh)
  | [] => by simp [upsertBy_nil, List.find?_cons_of_pos _ hf]
  | x :: xs => by
    by_cases h : p x
    · rw [upsertBy_cons, if_pos h, List.find?_cons_of_pos xs h,
        List.find?_cons_of_pos _ (hu x h)]
    · rw [upsertBy_cons, if_neg h, List.find?_cons_of_neg xs h,
        List.find?_cons_of_neg _ h, find?_upsertBy p upd fresh hu hf xs]

theorem mem_upsertBy {α : Type} (p : α → Bool) (upd : α → α) (fresh : α) :
    ∀ l : List α, ∀ y ∈ upsertBy p upd fresh l,
      (l.find? p = none ∧ y = fresh) ∨
      (∃ x, l.find? p = some x ∧ y = upd x) ∨ y ∈ l
  | [], y, hy => by
    rw [upsertBy_nil, List.mem_singleton] at hy
    exact Or.inl ⟨rfl, hy⟩
  | x :: xs, y, hy => by
    by_cases h : p x
    · rw [upsertBy_cons, if_pos h, List.mem_cons] at hy
      rcases hy with h1 | h2
      · exact Or.inr (Or.inl ⟨x, List.find?_cons_of_pos _ h, h1⟩)
      · exact Or.inr (Or.inr (List.mem_cons_of_mem _ h2))
    · rw [upsertBy_cons, if_neg h, List.mem_cons] at hy
      rcases hy with h1 | h2
      · exact Or.inr (Or.inr (by simp [h1]))
      · rcases mem_upsertBy p upd fresh xs y h2 with h3 | h4 | h5
        · refine Or.inl ⟨?_, h3.2⟩
          rw [List.find?_cons_of_neg _ h, h3.1]
        · rcases h4 with ⟨x0, hx0, hy0⟩
          refine Or.inr (Or.inl ⟨x0, ?_, hy0⟩)
          rw [List.find?_cons_of_neg _ h, hx0]
        · exact Or.inr (Or.inr (List.mem_cons_of_mem _ h5))

theorem sumBy_updateWhere {α : Type} (g : α → Int) (c : Int) (p : α → Bool)
    (f : α → α) (hf : ∀ x, p x = true → g (f x) = g x + c) : ∀ l : List α,
    sumBy g (updateWhere p f l) = sumBy g l + (l.countP p : Int) * c
  | [] => by simp [updateWhere_nil, sumBy_nil]
  | x :: xs => by
    by_cases h : p x
    · rw [updateWhere_cons, if_pos h, sumBy_cons, sumBy_cons, hf x h,
        sumBy_updateWhere g c p f hf xs, List.countP_cons_of_pos _ _ h]
      push_cast
      ring
    · rw [updateWhere_cons, if_neg h, sumBy_cons, sumBy_cons,
        sumBy_updateWhere g c p f hf xs, List.countP_cons_of_neg _ _ h]
      ring

theorem countP_updateWhere {α : Type} (q p : α → Bool) (f : α → α)
    (hq : ∀ x, p x = true → q (f x) = q x) (l : List α) :
    (updateWhere p f l).countP q = l.countP q := by
  induction l with
  | nil => rfl
  | cons x xs ih =>
    by_cases h : p x
    · rw [updateWhere_cons, if_pos h, List.countP_cons, List.countP_cons, hq x h, ih]
    · rw [updateWhere_cons, if_neg h, List.countP_cons, List.countP_cons, ih]

theorem updateWhere_of_countP_zero {α : Type} (p : α → Bool) (f : α → α)
    (l : List α) (h : l.countP p = 0) : updateWhere p f l = l := by
  induction l with
  | nil => rfl
  | cons x xs ih =>
    rw [List.countP_cons] at h
    have hx : ¬p x = true := by
      intro hb
      simp [hb] at h
    rw [updateWhere_cons, if_neg hx, ih (by omega)]

theorem countP_zero_iff_find?_none {α : Type} (p : α → Bool) (l : List α) :
    l.countP p = 0 ↔ l.find? p = none := by
  rw [List.countP_eq_zero, List.find?_eq_none]

/-! ### C7: Live Broadcast Hub subscriber isolation -/
theorem publishLoop_ok (p : String) : ∀ subs : List Subscriber,
    publishLoop subs p = .ok (subs.map fun s =>
      if s.broken then s else { s with received := s.received ++ [p] })
  | [] => rfl
  | s :: rest => by
    simp only [publishLoop, publishLoop_ok p rest, send, List.map_cons]
    by_cases hb : s.broken <;> simp [hb]

/-- Claim C7 (confirmed).  `publishLiveEvent` always returns normally, and
it attempts delivery to every subscriber in the set: each non-broken
subscriber receives the serialized payload regardless of how many other
subscribers are broken, and broken subscribers are simply left unchanged
(the delivery error is swallowed in the loop, so it can never escalate to
the ingestion caller or change the ingestion verdict). -/
theorem c7_subscriber_isolation (subs : List Subscriber) (ev : String) :
    publishLiveEvent subs ev =
      Except.ok (subs.map fun s =>
        if s.broken then s
        else { s with received := s.received ++ ["data: " ++ ev ++ "\n\n"] }) := by
  rw [publishLiveEvent, publishLoop_ok]

/-! ### C8: `file.edit` ingestion is not idempotent -/
theorem processFileEdit_ok (parse : String → Option Int) (now : Int)
    (e : FileEditEvent) (db : DB)
    (h : ¬(e.sessionId = "" ∨ e.filePath = "" ∨ e.operation = "")) :
    ∃ tc, processFileEdit parse noFail now e db =
      (.ok, insertFileEdit e (coerceDate parse now e.createdAt) tc
        ((openTurn db e.sessionId).map (fun t => t.id)) db) := by
  simp only [processFileEdit, if_neg h, fileEditFinish, noFail, Bool.false_eq_true,
    if_false]
  split
  · exact ⟨none, rfl⟩
  · exact ⟨_, rfl⟩

/-- Claim C8 (confirmed).  A well-formed `file.edit` event always appends
exactly one `file_edits` row (there is no conflict handling on this
table), so delivering the same payload twice in a row produces two rows:
duplicate delivery of a `file.edit` is double-counted. -/
theorem c8_file_edit_double_counted (parse : String → Option Int) (now : Int)
    (e : FileEditEvent) (db : DB)
    (h : ¬(e.sessionId = "" ∨ e.filePath = "" ∨ e.operation = "")) :
    (processFileEdit parse noFail now e db).2.fileEdits.length =
      db.fileEdits.length + 1 ∧
    (processFileEdit parse noFail now e
        (processFileEdit parse noFail now e db).2).2.fileEdits.length =
      db.fileEdits.length + 2 := by
  obtain ⟨tc1, h1⟩ := processFileEdit_ok parse now e db h
  obtain ⟨tc2, h2⟩ :=
    processFileEdit_ok parse now e (processFileEdit parse noFail now e db).2 h
  constructor
  · rw [h1]
    simp [insertFileEdit]
  · rw [h2, h1]
    simp [insertFileEdit]

/-- Witness for C8 at a concrete event and the empty store. -/
theorem c8_witness :
    (processFileEdit parseNone noFail 0 sampleFileEdit emptyDB).2.fileEdits.length =
      emptyDB.fileEdits.length + 1 ∧
    (processFileEdit parseNone noFail 0 sampleFileEdit
        (processFileEdit parseNone noFail 0 sampleFileEdit emptyDB).2).2.fileEdits.length =
      emptyDB.fileEdits.length + 2 :=
  c8_file_edit_double_counted parseNone 0 sampleFileEdit emptyDB (by decide)

/-- Claim C9 (confirmed).  For every event kind, an empty string in any of
the kind's required string fields makes the router answer the
missing-required-fields validation error (JavaScript string falsiness
conflates an absent field and an empty one), and the store is completely
untouched — validation precedes every database call. -/
theorem c9_empty_required_rejected (parse : String → Option Int)
    (oracle : Nat → Bool) (now : Int) (ev : Event) (db : DB)
    (h : HasEmptyRequired ev) :
    processEvent parse oracle now ev db = (.validationError, db) := by
  cases ev with
  | prompt e =>
    simp only [processEvent, processPrompt]
    exact if_pos h
  | toolBefore e =>
    simp only [processEvent, processToolBefore]
    exact if_pos h
  | toolAfter e =>
    simp only [processEvent, processToolAfter]
    exact if_pos h
  | fileEdit e =>
    simp only [processEvent, processFileEdit]
    exact if_pos h
  | text e =>
    simp only [processEvent, processText]
    exact if_pos h
  | request e =>
    simp only [processEvent, processRequest]
    exact if_pos h

/-- Witness for C9: a prompt event whose `prompt` field is the empty
string is rejected and the store is unchanged. -/
theorem c9_witness :
    processEvent parseNone noFail 0
      (.prompt { samplePrompt with prompt := "" }) emptyDB =
      (.validationError, emptyDB) :=
  c9_empty_required_rejected parseNone noFail 0
    (.prompt { samplePrompt with prompt := "" }) emptyDB (Or.inr (Or.inr rfl))

/-! ### C10: timestamp coercion -/
theorem processPrompt_fst (parse : String → Option Int) (now : Int)
    (e : PromptEvent) (db : DB) :
    (processPrompt parse noFail now e db).1 =
      if e.sessionId = "" ∨ e.messageId = "" ∨ e.prompt = "" then
        Response.validationError else .ok := by
  simp only [processPrompt]
  split
  · rfl
  · simp [noFail]

theorem processToolBefore_fst (parse : String → Option Int) (now : Int)
    (e : ToolBeforeEvent) (db : DB) :
    (processToolBefore parse noFail now e db).1 =
      if e.sessionId = "" ∨ e.callId = "" ∨ e.tool = "" then
        Response.validationError else .ok := by
  simp only [processToolBefore]
  split
  · rfl
  · simp [noFail]

theorem processToolAfter_fst (parse : String → Option Int) (now : Int)
    (e : ToolAfterEvent) (db : DB) :
    (processToolAfter parse noFail now e db).1 =
      if e.sessionId = "" ∨ e.callId = "" ∨ e.tool = "" then
        Response.validationError else .ok := by
  simp only [processToolAfter]
  split
  · rfl
  · simp [noFail]

theorem processFileEdit_fst (parse : String → Option Int) (now : Int)
    (e : FileEditEvent) (db : DB) :
    (processFileEdit parse noFail now e db).1 =
      if e.sessionId = "" ∨ e.filePath = "" ∨ e.operation = "" then
        Response.validationError else .ok := by
  simp only [processFileEdit]
  split
  · rfl
  · by_cases htc : e.toolCallId = "" <;> simp [htc, noFail, fileEditFinish]

theorem processText_fst (parse : String → Option Int) (now : Int)
    (e : TextEvent) (db : DB) :
    (processText parse noFail now e db).1 =
      if e.sessionId = "" ∨ e.messageId = "" ∨ e.partId = "" ∨ e.text = "" then
        Response.validationError else .ok := by
  simp only [processText]
  split
  · rfl
  · simp [noFail]

/-- Claim C10 (confirmed).  For the five kinds that use `coerceDate`
(prompt, tool.before, tool.after, file.edit, assistant.text): a missing,
empty, or unparseable `createdAt` silently becomes the server's current
time; the coerced timestamp is always either the current time or an
actually parsed value (never an invalid date); and the handler's response
never depends on the `createdAt` value — an event is never rejected for a
bad timestamp. -/
theorem c10_timestamp_coercion (parse : String → Option Int) (now : Int) :
    (∀ inp, (inp = none ∨ ∃ s, inp = some s ∧ (s = "" ∨ parse s = none)) →
      coerceDate parse now inp = now) ∧
    (∀ inp, coerceDate parse now inp = now ∨
      ∃ s t, inp = some s ∧ parse s = some t ∧ coerceDate parse now inp = t) ∧
    (∀ ev : Event, ∀ c : Option String, ∀ db : DB, UsesCoerceDate ev →
      (processEvent parse noFail now (withCreated ev c) db).1 =
      (processEvent parse noFail now ev db).1) := by
  refine ⟨?_, ?_, ?_⟩
  · rintro inp (rfl | ⟨s, rfl, hs | hp⟩)
    · rfl
    · simp [coerceDate, hs]
    · by_cases hs : s = "" <;> simp [coerceDate, hs, hp]
  · intro inp
    match inp with
    | none => exact Or.inl rfl
    | some s =>
      by_cases hs : s = ""
      · exact Or.inl (by simp [coerceDate, hs])
      · cases hp : parse s with
        | none => exact Or.inl (by simp [coerceDate, hs, hp])
        | some t => exact Or.inr ⟨s, t, rfl, hp, by simp [coerceDate, hs, hp]⟩
  · intro ev c db hev
    cases ev with
    | prompt e =>
      simp only [withCreated, processEvent, processPrompt_fst]
    | toolBefore e =>
      simp only [withCreated, processEvent, processToolBefore_fst]
    | toolAfter e =>
      simp only [withCreated, processEvent, processToolAfter_fst]
    | fileEdit e =>
      simp only [withCreated, processEvent, processFileEdit_fst]
    | text e =>
      simp only [withCreated, processEvent, processText_fst]
    | request e => exact hev.elim

/-- Witness for C10 at a concrete clock and events. -/
theorem c10_witness :
    coerceDate parseNone 0 none = 0 ∧
    coerceDate parseNone 0 (some "garbage") = 0 ∧
    (processEvent parseNone noFail 0
        (withCreated (.prompt samplePrompt) (some "garbage")) emptyDB).1 =
      (processEvent parseNone noFail 0 (.prompt samplePrompt) emptyDB).1 :=
  ⟨(c10_timestamp_coercion parseNone 0).1 none (Or.inl rfl),
   (c10_timestamp_coercion parseNone 0).1 (some "garbage")
     (Or.inr ⟨"garbage", rfl, Or.inr rfl⟩),
   (c10_timestamp_coercion parseNone 0).2.2 (.prompt samplePrompt)
     (some "garbage") emptyDB trivial⟩

/-- Counterexample to C5 as stated: while a turn is open for session `s1`
(id 0), a `tool.after` event for a fresh `callId` stores its ToolCall row
with a null turn reference — the `tool.after` handler never looks up the
open turn. -/
theorem c5_counterexample :
    (openTurn c5db "s1").map (fun t => t.id) = some 0 ∧
    ((processToolAfter parseNone noFail 0 c5after c5db).2.toolCalls.find?
        (fun c => c.callId == "c1")).map (fun c => c.turnId) = some none := by
  decide

/-- Claim C5 amended.  `tool.before` and `file.edit` events are attributed
to the turn open for their session at the moment they are processed (null
if none); a `tool.after` event never re-attributes: it preserves the turn
reference already stored for its `callId` by a prior `tool.before`, and
stores a null turn reference when its `callId` was never reported before,
even if a turn is open. -/
theorem c5_turn_attribution_amended (parse : String → Option Int) (now : Int)
    (db : DB)
    (e1 : ToolBeforeEvent) (h1 : ¬(e1.sessionId = "" ∨ e1.callId = "" ∨ e1.tool = ""))
    (e2 : ToolAfterEvent) (h2 : ¬(e2.sessionId = "" ∨ e2.callId = "" ∨ e2.tool = ""))
    (e3 : FileEditEvent) (h3 : ¬(e3.sessionId = "" ∨ e3.filePath = "" ∨ e3.operation = "")) :
    ((processToolBefore parse noFail now e1 db).2.toolCalls.find?
        (fun c => c.callId == e1.callId)).map (fun c => c.turnId) =
      some ((openTurn db e1.sessionId).map (fun t => t.id)) ∧
    ((processToolAfter parse noFail now e2 db).2.toolCalls.find?
        (fun c => c.callId == e2.callId)).map (fun c => c.turnId) =
      some (match db.toolCalls.find? (fun c => c.callId == e2.callId) with
        | some c => c.turnId
        | none => none) ∧
    ((processFileEdit parse noFail now e3 db).2.fileEdits.getLast?).map
        (fun r => r.turnId) =
      some ((openTurn db e3.sessionId).map (fun t => t.id)) := by
  refine ⟨?_, ?_, ?_⟩
  · simp only [processToolBefore, if_neg h1, noFail, Bool.false_eq_true, if_false]
    rw [find?_upsertBy]
    · cases db.toolCalls.find? (fun c => c.callId == e1.callId) <;> rfl
    · exact fun x hx => hx
    · simp
  · simp only [processToolAfter, if_neg h2, noFail, Bool.false_eq_true, if_false]
    rw [find?_upsertBy]
    · cases db.toolCalls.find? (fun c => c.callId == e2.callId) <;> rfl
    · exact fun x hx => hx
    · simp
  · obtain ⟨tc, htc⟩ := processFileEdit_ok parse now e3 db h3
    rw [htc]
    simp [insertFileEdit]

/-- Witness for the amended C5 at a concrete store with one open turn. -/
theorem c5_witness :
    ((processToolBefore parseNone noFail 0
        { sessionId := "s1", callId := "c2", tool := "bash", args := none
          createdAt := none } c5db).2.toolCalls.find?
        (fun c => c.callId == "c2")).map (fun c => c.turnId) =
      some ((openTurn c5db "s1").map (fun t => t.id)) ∧
    ((processToolAfter parseNone noFail 0 c5after c5db).2.toolCalls.find?
        (fun c => c.callId == "c1")).map (fun c => c.turnId) =
      some (match c5db.toolCalls.find? (fun c => c.callId == "c1") with
        | some c => c.turnId
        | none => none) ∧
    ((processFileEdit parseNone noFail 0
        { sampleFileEdit with sessionId := "s1" } c5db).2.fileEdits.getLast?).map
        (fun r => r.turnId) =
      some ((openTurn c5db "s1").map (fun t => t.id)) :=
  c5_turn_attribution_amended parseNone 0 c5db
    { sessionId := "s1", callId := "c2", tool := "bash", args := none, createdAt := none }
    (by decide) c5after (by decide)
    { sampleFileEdit with sessionId := "s1" } (by decide)

/-! ### C6: assistant text part accumulation -/
theorem mem_updateWhere {α : Type} (p : α → Bool) (f : α → α) (l : List α) :
    ∀ y ∈ updateWhere p f l, ∃ x ∈ l, y = if p x then f x else x := by
  intro y hy
  obtain ⟨x, hx, hxy⟩ := List.mem_map.mp hy
  exact ⟨x, hx, hxy.symm⟩

theorem updateWhere_idem {α : Type} (p : α → Bool) (f : α → α)
    (hp : ∀ x, p (f x) = p x) (hf : ∀ x, f (f x) = f x) (l : List α) :
    updateWhere p f (updateWhere p f l) = updateWhere p f l := by
  induction l with
  | nil => rfl
  | cons x xs ih =>
    rw [updateWhere_cons, updateWhere_cons, ih]
    by_cases h : p x
    · rw [if_pos h, if_pos (by rw [hp]; exact h), hf]
    · rw [if_neg h, if_neg h]

theorem assistantText_updateWhere (mid txt : String) (l : List TurnRow) :
    ∀ t ∈ updateWhere (fun t => t.assistantMessageId == some mid)
      (fun t => { t with assistantText := some txt }) l,
      t.assistantMessageId = some mid → t.assistantText = some txt := by
  intro t ht hmid
  obtain ⟨x, _, rfl⟩ := mem_updateWhere _ _ l t ht
  by_cases hp : (x.assistantMessageId == some mid) = true
  · rw [if_pos hp]
  · rw [if_neg hp] at hmid ⊢
    exact absurd (by simp [hmid]) hp

theorem perm_insertSorted (r : TextPartRow) : ∀ l : List TextPartRow,
    (insertSorted r l).Perm (r :: l)
  | [] => by simp [insertSorted]
  | x :: xs => by
    rw [insertSorted]
    by_cases h : r.createdAt ≤ x.createdAt
    · rw [if_pos h]
    · rw [if_neg h]
      exact ((perm_insertSorted r xs).cons x).trans (List.Perm.swap r x xs)

theorem pairwise_insertSorted (r : TextPartRow) : ∀ l : List TextPartRow,
    l.Pairwise (fun a b => a.createdAt ≤ b.createdAt) →
    (insertSorted r l).Pairwise (fun a b => a.createdAt ≤ b.createdAt)
  | [], _ => by simp [insertSorted]
  | x :: xs, h => by
    rw [insertSorted]
    rcases List.pairwise_cons.mp h with ⟨hx, hxs⟩
    by_cases hle : r.createdAt ≤ x.createdAt
    · rw [if_pos hle]
      refine List.pairwise_cons.mpr ⟨?_, h⟩
      intro y hy
      rcases List.mem_cons.mp hy with rfl | hy2
      · exact hle
      · exact le_trans hle (hx y hy2)
    · rw [if_neg hle]
      refine List.pairwise_cons.mpr ⟨?_, pairwise_insertSorted r xs hxs⟩
      intro y hy
      rcases List.mem_cons.mp ((perm_insertSorted r xs).mem_iff.mp hy) with rfl | hy2
      · exact le_of_not_le hle
      · exact hx y hy2

theorem sortByCreated_cons (x : TextPartRow) (xs : List TextPartRow) :
    sortByCreated (x :: xs) = insertSorted x (sortByCreated xs) := rfl

theorem perm_sortByCreated : ∀ l : List TextPartRow, (sortByCreated l).Perm l
  | [] => List.Perm.refl _
  | x :: xs =>
    (perm_insertSorted x (sortByCreated xs)).trans ((perm_sortByCreated xs).cons x)

theorem pairwise_sortByCreated : ∀ l : List TextPartRow,
    (sortByCreated l).Pairwise (fun a b => a.createdAt ≤ b.createdAt)
  | [] => List.Pairwise.nil
  | x :: xs => pairwise_insertSorted x _ (pairwise_sortByCreated xs)

/-- Claim C6 (confirmed).  An `assistant.text` event (i) inserts its part
unless a part with the same `(messageId, partId)` already exists, in
which case the stored parts are unchanged; (ii) overwrites the cached
full-text field of every turn whose `assistantMessageId` matches with the
reconstruction of all stored parts of that message; (iii) redelivering
the same part leaves both the part list and the cached text unchanged;
and (iv) the reconstruction orders the stored parts by their creation
timestamps (it is a createdAt-sorted permutation of the stored parts), so
out-of-send-order delivery is reconstructed in creation-time order and a
duplicate part never duplicates its text. -/
theorem c6_text_part_accumulation (parse : String → Option Int) (now : Int)
    (e : TextEvent) (db : DB)
    (h : ¬(e.sessionId = "" ∨ e.messageId = "" ∨ e.partId = "" ∨ e.text = "")) :
    (processText parse noFail now e db).2.textParts =
      (if (db.textParts.find?
            (fun r => r.messageId == e.messageId && r.partId == e.partId)).isSome
        then db.textParts
        else db.textParts ++
          [{ sessionId := e.sessionId, messageId := e.messageId, partId := e.partId
             text := e.text, createdAt := coerceDate parse now e.createdAt }]) ∧
    (∀ t ∈ (processText parse noFail now e db).2.turns,
      t.assistantMessageId = some e.messageId →
      t.assistantText = some (reconstructText
        (processText parse noFail now e db).2.textParts e.messageId)) ∧
    ((processText parse noFail now e ((processText parse noFail now e db).2)).2.textParts =
      (processText parse noFail now e db).2.textParts ∧
     (processText parse noFail now e ((processText parse noFail now e db).2)).2.turns =
      (processText parse noFail now e db).2.turns) ∧
    (∀ parts : List TextPartRow,
      (sortByCreated parts).Pairwise (fun a b => a.createdAt ≤ b.createdAt) ∧
      (sortByCreated parts).Perm parts) := by
  have key : ∀ d : DB, processText parse noFail now e d =
      (.ok,
        { d with
          textParts := if (d.textParts.find?
              (fun r => r.messageId == e.messageId && r.partId == e.partId)).isSome
            then d.textParts
            else d.textParts ++
              [{ sessionId := e.sessionId, messageId := e.messageId
                 partId := e.partId, text := e.text
                 createdAt := coerceDate parse now e.createdAt }]
          turns := updateWhere (fun t => t.assistantMessageId == some e.messageId)
            (fun t => { t with assistantText := some (reconstructText
              (if (d.textParts.find?
                  (fun r => r.messageId == e.messageId && r.partId == e.partId)).isSome
                then d.textParts
                else d.textParts ++
                  [{ sessionId := e.sessionId, messageId := e.messageId
                     partId := e.partId, text := e.text
                     createdAt := coerceDate parse now e.createdAt }])
              e.messageId) })
            d.turns }) := by
    intro d
    by_cases hdup : (d.textParts.find?
        (fun r => r.messageId == e.messageId && r.partId == e.partId)).isSome
    · simp [processText, if_neg h, noFail, hdup]
    · simp [processText, if_neg h, noFail, hdup]
  have hfst : ((processText parse noFail now e db).2).textParts =
      (if (db.textParts.find?
            (fun r => r.messageId == e.messageId && r.partId == e.partId)).isSome
        then db.textParts
        else db.textParts ++
          [{ sessionId := e.sessionId, messageId := e.messageId, partId := e.partId
             text := e.text, createdAt := coerceDate parse now e.createdAt }]) := by
    rw [key db]
  refine ⟨hfst, ?_, ?_, ?_⟩
  · rw [key db]
    intro t ht hmid
    exact assistantText_updateWhere e.messageId _ db.turns t ht hmid
  · have hdup1 : (((processText parse noFail now e db).2).textParts.find?
        (fun r => r.messageId == e.messageId && r.partId == e.partId)).isSome := by
      rw [hfst]
      by_cases hdup : (db.textParts.find?
          (fun r => r.messageId == e.messageId && r.partId == e.partId)).isSome
      · rw [if_pos hdup]
        exact hdup
      · rw [if_neg hdup]
        refine List.find?_isSome.mpr ⟨_, List.mem_append_right _ (List.mem_singleton_self _), ?_⟩
        simp
    constructor
    · rw [key ((processText parse noFail now e db).2), if_pos hdup1]
    · rw [key ((processText parse noFail now e db).2)]
      simp only [if_pos hdup1]
      rw [key db]
      refine updateWhere_idem _ _ ?_ ?_ db.turns
      · intro x
        rfl
      · intro x
        rfl
  · intro parts
    exact ⟨pairwise_sortByCreated parts, perm_sortByCreated parts⟩

/-! ### Shape of the `request` handler in the fault-free case -/
theorem finishTurn_noFail (parse : String → Option Int) (k : Nat) (e : ReqEvent)
    (db : DB) :
    (finishTurn parse noFail k e db).1 = .ok ∧
    (finishTurn parse noFail k e db).2.requests = db.requests ∧
    (finishTurn parse noFail k e db).2.sessions = db.sessions ∧
    (finishTurn parse noFail k e db).2.daily = db.daily := by
  simp only [finishTurn, noFail, Bool.false_eq_true, if_false]
  cases openTurn db e.sessionId <;> simp

/-- Case analysis of the Delta Engine against a fault-free store:
the request row is always upserted; on a first report the full values go
to Session and DailySummary; on an existing record the delta goes to both
exactly when one of the cost, input, or output components is nonzero, and
nothing is written to the aggregates otherwise. -/
theorem processRequest_shape (parse : String → Option Int) (now : Int)
    (e : ReqEvent) (db : DB) (ts : Int)
    (hv : ¬(e.messageId = "" ∨ e.sessionId = "" ∨ e.providerId = "" ∨ e.modelId = ""))
    (hts : tsOfReq parse now e = some ts) :
    (processRequest parse noFail now e db).1 = .ok ∧
    (processRequest parse noFail now e db).2.requests =
      upsertBy (fun r => r.messageId == e.messageId) (requestUpd parse e)
        (requestFresh parse e ts) db.requests ∧
    (db.requests.find? (fun r => r.messageId == e.messageId) = none →
      (processRequest parse noFail now e db).2.sessions =
        sessionApplyFull e ts db.sessions ∧
      (processRequest parse noFail now e db).2.daily =
        dailyApplyFull e (dayOf ts) db.daily) ∧
    (∀ old, db.requests.find? (fun r => r.messageId == e.messageId) = some old →
      (((deltaOf e old).cost ≠ 0 ∨ (deltaOf e old).input ≠ 0 ∨ (deltaOf e old).output ≠ 0) →
        (processRequest parse noFail now e db).2.daily =
          dailyApplyDelta (dayOf ts) e.providerId e.modelId (deltaOf e old) db.daily ∧
        (processRequest parse noFail now e db).2.sessions =
          sessionApplyDelta e.sessionId (deltaOf e old) ts db.sessions) ∧
      (¬((deltaOf e old).cost ≠ 0 ∨ (deltaOf e old).input ≠ 0 ∨ (deltaOf e old).output ≠ 0) →
        (processRequest parse noFail now e db).2.daily = db.daily ∧
        (processRequest parse noFail now e db).2.sessions = db.sessions)) := by
  cases hex : db.requests.find? (fun r => r.messageId == e.messageId) with
  | none =>
    simp only [processRequest, if_neg hv, hts, hex, noFail, Bool.false_eq_true,
      if_false]
    refine ⟨(finishTurn_noFail parse 4 e _).1, ?_, ?_, ?_⟩
    · rw [(finishTurn_noFail parse 4 e _).2.1]
    · intro _
      exact ⟨(finishTurn_noFail parse 4 e _).2.2.1, (finishTurn_noFail parse 4 e _).2.2.2⟩
    · intro old hold
      exact absurd hold (by simp)
  | some old0 =>
    simp only [processRequest, if_neg hv, hts, hex, noFail, Bool.false_eq_true,
      if_false]
    by_cases hc : (deltaOf e old0).cost ≠ 0 ∨ (deltaOf e old0).input ≠ 0 ∨
        (deltaOf e old0).output ≠ 0
    · rw [if_pos hc]
      refine ⟨(finishTurn_noFail parse 4 e _).1, ?_, ?_, ?_⟩
      · rw [(finishTurn_noFail parse 4 e _).2.1]
      · intro hno
        exact absurd hno (by simp)
      · intro old hold
        have : old = old0 := (Option.some_injective _ hold).symm
        subst this
        refine ⟨fun _ => ⟨?_, ?_⟩, fun hn => absurd hc hn⟩
        · rw [(finishTurn_noFail parse 4 e _).2.2.2]
        · rw [(finishTurn_noFail parse 4 e _).2.2.1]
    · rw [if_neg hc]
      refine ⟨(finishTurn_noFail parse 2 e _).1, ?_, ?_, ?_⟩
      · rw [(finishTurn_noFail parse 2 e _).2.1]
      · intro hno
        exact absurd hno (by simp)
      · intro old hold
        have : old = old0 := (Option.some_injective _ hold).symm
        subst this
        refine ⟨fun hy => absurd hy hc, fun _ => ⟨?_, ?_⟩⟩
        · rw [(finishTurn_noFail parse 2 e _).2.2.2]
        · rw [(finishTurn_noFail parse 2 e _).2.2.1]

/-! ### Key-multiplicity helpers -/
theorem find?_some_le_countP {α : Type} (p : α → Bool) (l : List α) (x : α)
    (h : l.find? p = some x) : 1 ≤ l.countP p :=
  List.countP_pos_iff.mpr ⟨x, List.mem_of_find?_eq_some h, List.find?_some h⟩

theorem countP_upsertBy_key {α : Type} (p : α → Bool) (upd : α → α) (fresh : α)
    (hq : ∀ x, p x = true → p (upd x) = p x) (hf : p fresh = true) (l : List α)
    (hl : l.countP p ≤ 1) : (upsertBy p upd fresh l).countP p = 1 := by
  rw [countP_upsertBy p p upd fresh hq l]
  cases hfind : l.find? p with
  | none =>
    rw [(countP_zero_iff_find?_none p l).mpr hfind, hf]
    simp
  | some x =>
    have := find?_some_le_countP p l x hfind
    simp only [Nat.add_zero]
    omega

/-- Counterexample to C2 as stated: for `c2e2` the reasoning-token delta
against the stored record is 10 ≠ 0, yet the Session and DailySummary
writes are skipped entirely — the skip condition tests only the cost,
input, and output components. -/
theorem c2_counterexample :
    ((c2db.requests.find? (fun r => r.messageId == c2e2.messageId)).map
      (fun r => c2e2.tokens.reasoning - r.tokensReasoning)) = some 10 ∧
    (processRequest parseNone noFail 0 c2e2 c2db).2.daily = c2db.daily ∧
    (processRequest parseNone noFail 0 c2e2 c2db).2.sessions = c2db.sessions := by
  decide

/-- Claim C2 amended.  On an existing record, the Session and DailySummary
writes are skipped iff the cost, input, and output deltas are all zero
(the reasoning and cache deltas are not consulted); when one of those
three is nonzero, the full six-component delta is applied to both
aggregates. -/
theorem c2_zero_delta_skip_amended (parse : String → Option Int) (now : Int)
    (e : ReqEvent) (db : DB) (old : RequestRow) (ts : Int)
    (hv : ¬(e.messageId = "" ∨ e.sessionId = "" ∨ e.providerId = "" ∨ e.modelId = ""))
    (hts : tsOfReq parse now e = some ts)
    (hold : db.requests.find? (fun r => r.messageId == e.messageId) = some old) :
    (((deltaOf e old).cost = 0 ∧ (deltaOf e old).input = 0 ∧ (deltaOf e old).output = 0) →
      (processRequest parse noFail now e db).2.daily = db.daily ∧
      (processRequest parse noFail now e db).2.sessions = db.sessions) ∧
    (¬((deltaOf e old).cost = 0 ∧ (deltaOf e old).input = 0 ∧ (deltaOf e old).output = 0) →
      (processRequest parse noFail now e db).2.daily =
        dailyApplyDelta (dayOf ts) e.providerId e.modelId (deltaOf e old) db.daily ∧
      (processRequest parse noFail now e db).2.sessions =
        sessionApplyDelta e.sessionId (deltaOf e old) ts db.sessions) := by
  have hshape := (processRequest_shape parse now e db ts hv hts).2.2.2 old hold
  constructor
  · intro ⟨hc, hi, ho⟩
    exact hshape.2 (by simp [hc, hi, ho])
  · intro hne
    refine hshape.1 ?_
    by_contra hz
    push_neg at hz
    exact hne ⟨hz.1, hz.2.1, hz.2.2⟩

/-- Witness for the amended C2: the reasoning-only redelivery `c2e2`
falls in the skip case. -/
theorem c2_witness :
    (processRequest parseNone noFail 0 c2e2 c2db).2.daily = c2db.daily ∧
    (processRequest parseNone noFail 0 c2e2 c2db).2.sessions = c2db.sessions :=
  (c2_zero_delta_skip_amended parseNone 0 c2e2 c2db
      (requestFresh parseNone c2e1 0) 0 (by decide) rfl (by decide)).1
    (by decide)

/-- Counterexample to C3 as stated: with the sessions upsert failing, the
`request` handler answers the retryable StoreFailure response, yet the
Request row has already been inserted while Session and DailySummary were
not — the update was left half-applied. -/
theorem c3_counterexample :
    (processRequest parseNone c3oracle 0 c2e1 emptyDB).1 = .storeFailure ∧
    (processRequest parseNone c3oracle 0 c2e1 emptyDB).2.requests ≠ emptyDB.requests ∧
    (processRequest parseNone c3oracle 0 c2e1 emptyDB).2.sessions = emptyDB.sessions ∧
    (processRequest parseNone c3oracle 0 c2e1 emptyDB).2.daily = emptyDB.daily := by
  decide

/-- Claim C3 amended.  Processing is not transactional: a StoreFailure
leaves exactly the writes that preceded the failing round-trip applied.
In particular (i) when the failure hits the initial lookup or the request
upsert itself (the first two round-trips), the store is completely
unchanged, and (ii) when the first-report branch fails at its third
round-trip (the sessions upsert), the handler returns StoreFailure with
the request row already upserted and everything else untouched. -/
theorem c3_store_failure_sequenced_amended (parse : String → Option Int) (now : Int)
    (e : ReqEvent) (db : DB) (k : Nat) (hk : k ≤ 1) :
    ((processRequest parse (fun n => n == k) now e db).2 = db) ∧
    (∀ ts, tsOfReq parse now e = some ts →
      ¬(e.messageId = "" ∨ e.sessionId = "" ∨ e.providerId = "" ∨ e.modelId = "") →
      db.requests.find? (fun r => r.messageId == e.messageId) = none →
      processRequest parse (fun n => n == 2) now e db =
        (.storeFailure,
          { db with requests := (upsertBy (fun r => r.messageId == e.messageId)
              (requestUpd parse e) (requestFresh parse e ts) db.requests) })) := by
  constructor
  · rcases Nat.le_one_iff_eq_zero_or_eq_one.mp hk with rfl | rfl
    all_goals
      by_cases hv : e.messageId = "" ∨ e.sessionId = "" ∨ e.providerId = "" ∨ e.modelId = ""
    · simp [processRequest, hv]
    · cases hts : tsOfReq parse now e with
      | none => simp [processRequest, hv, hts]
      | some ts => simp [processRequest, hv, hts]
    · simp [processRequest, hv]
    · cases hts : tsOfReq parse now e with
      | none => simp [processRequest, hv, hts]
      | some ts => simp [processRequest, hv, hts]
  · intro ts hts hv hnone
    simp [processRequest, hv, hts, hnone]

/-- Witness for the amended C3 at a concrete event and the empty store. -/
theorem c3_witness :
    ((processRequest parseNone (fun n => n == 0) 0 c2e1 emptyDB).2 = emptyDB) ∧
    processRequest parseNone (fun n => n == 2) 0 c2e1 emptyDB =
      (.storeFailure,
        { emptyDB with requests := (upsertBy (fun r => r.messageId == c2e1.messageId)
            (requestUpd parseNone c2e1) (requestFresh parseNone c2e1 0) emptyDB.requests) }) :=
  ⟨(c3_store_failure_sequenced_amended parseNone 0 c2e1 emptyDB 0 (by decide)).1,
   (c3_store_failure_sequenced_amended parseNone 0 c2e1 emptyDB 0 (by decide)).2 0 rfl
     (by decide) rfl⟩

/-! ### Column-sum behaviour of the aggregate writes -/
theorem sumBy_updateWhere' {α : Type} (g : α → Int) (p : α → Bool) (f : α → α) :
    ∀ l : List α, sumBy g (updateWhere p f l) =
      sumBy g l + sumBy (fun x => if p x then g (f x) - g x else 0) l
  | [] => by simp [updateWhere_nil, sumBy_nil]
  | x :: xs => by
    by_cases h : p x
    · rw [updateWhere_cons, if_pos h, sumBy_cons, sumBy_cons, sumBy_cons, if_pos h,
        sumBy_updateWhere' g p f xs]
      ring
    · rw [updateWhere_cons, if_neg h, sumBy_cons, sumBy_cons, sumBy_cons, if_neg h,
        sumBy_updateWhere' g p f xs]
      ring

theorem sumBy_ite_const {α : Type} (p : α → Bool) (c : Int) : ∀ l : List α,
    sumBy (fun x => if p x then c else 0) l = (l.countP p : Int) * c
  | [] => by simp [sumBy_nil]
  | x :: xs => by
    by_cases h : p x
    · rw [sumBy_cons, if_pos h, sumBy_ite_const p c xs, List.countP_cons_of_pos _ _ h]
      push_cast
      ring
    · rw [sumBy_cons, if_neg h, sumBy_ite_const p c xs, List.countP_cons_of_neg _ _ h]
      ring

theorem sumBy_sessionApplyFull_input (e : ReqEvent) (ts : Int) (l : List SessionRow) :
    sumBy (fun s => s.totalTokensInput) (sessionApplyFull e ts l) =
      sumBy (fun s => s.totalTokensInput) l + e.tokens.input := by
  rw [sessionApplyFull, sumBy_upsertBy]
  cases l.find? (fun s => s.sessionId == e.sessionId) with
  | none => simp
  | some s => simp

theorem sumBy_sessionApplyFull_output (e : ReqEvent) (ts : Int) (l : List SessionRow) :
    sumBy (fun s => s.totalTokensOutput) (sessionApplyFull e ts l) =
      sumBy (fun s => s.totalTokensOutput) l + e.tokens.output := by
  rw [sessionApplyFull, sumBy_upsertBy]
  cases l.find? (fun s => s.sessionId == e.sessionId) with
  | none => simp
  | some s => simp

theorem sumBy_sessionApplyFull_cost (e : ReqEvent) (ts : Int) (l : List SessionRow) :
    sumBy (fun s => s.totalCostUsd) (sessionApplyFull e ts l) =
      sumBy (fun s => s.totalCostUsd) l + e.cost := by
  rw [sessionApplyFull, sumBy_upsertBy]
  cases l.find? (fun s => s.sessionId == e.sessionId) with
  | none => simp
  | some s => simp

theorem sumBy_dailyApplyFull_input (e : ReqEvent) (day : Int) (l : List DailyRow) :
    sumBy (fun d => d.tokensInput) (dailyApplyFull e day l) =
      sumBy (fun d => d.tokensInput) l + e.tokens.input := by
  rw [dailyApplyFull, sumBy_upsertBy]
  cases l.find? (fun d => d.date == day && d.providerId == e.providerId &&
      d.modelId == e.modelId) with
  | none => simp
  | some d => simp

theorem sumBy_dailyApplyFull_output (e : ReqEvent) (day : Int) (l : List DailyRow) :
    sumBy (fun d => d.tokensOutput) (dailyApplyFull e day l) =
      sumBy (fun d => d.tokensOutput) l + e.tokens.output := by
  rw [dailyApplyFull, sumBy_upsertBy]
  cases l.find? (fun d => d.date == day && d.providerId == e.providerId &&
      d.modelId == e.modelId) with
  | none => simp
  | some d => simp

theorem sumBy_dailyApplyFull_reasoning (e : ReqEvent) (day : Int) (l : List DailyRow) :
    sumBy (fun d => d.tokensReasoning) (dailyApplyFull e day l) =
      sumBy (fun d => d.tokensReasoning) l + e.tokens.reasoning := by
  rw [dailyApplyFull, sumBy_upsertBy]
  cases l.find? (fun d => d.date == day && d.providerId == e.providerId &&
      d.modelId == e.modelId) with
  | none => simp
  | some d => simp

theorem sumBy_dailyApplyFull_cacheRead (e : ReqEvent) (day : Int) (l : List DailyRow) :
    sumBy (fun d => d.tokensCacheRead) (dailyApplyFull e day l) =
      sumBy (fun d => d.tokensCacheRead) l + e.tokens.cacheRead := by
  rw [dailyApplyFull, sumBy_upsertBy]
  cases l.find? (fun d => d.date == day && d.providerId == e.providerId &&
      d.modelId == e.modelId) with
  | none => simp
  | some d => simp

theorem sumBy_dailyApplyFull_cacheWrite (e : ReqEvent) (day : Int) (l : List DailyRow) :
    sumBy (fun d => d.tokensCacheWrite) (dailyApplyFull e day l) =
      sumBy (fun d => d.tokensCacheWrite) l + e.tokens.cacheWrite := by
  rw [dailyApplyFull, sumBy_upsertBy]
  cases l.find? (fun d => d.date == day && d.providerId == e.providerId &&
      d.modelId == e.modelId) with
  | none => simp
  | some d => simp

theorem sumBy_dailyApplyFull_cost (e : ReqEvent) (day : Int) (l : List DailyRow) :
    sumBy (fun d => d.costUsd) (dailyApplyFull e day l) =
      sumBy (fun d => d.costUsd) l + e.cost := by
  rw [dailyApplyFull, sumBy_upsertBy]
  cases l.find? (fun d => d.date == day && d.providerId == e.providerId &&
      d.modelId == e.modelId) with
  | none => simp
  | some d => simp

theorem sumBy_sessionApplyDelta_input (sid : String) (d : Delta) (ts : Int)
    (l : List SessionRow) (h1 : l.countP (fun s => s.sessionId == sid) = 1) :
    sumBy (fun s => s.totalTokensInput) (sessionApplyDelta sid d ts l) =
      sumBy (fun s => s.totalTokensInput) l + d.input := by
  rw [sessionApplyDelta, sumBy_updateWhere']
  simp only [add_sub_cancel_left]
  rw [sumBy_ite_const, h1]
  simp

theorem sumBy_sessionApplyDelta_output (sid : String) (d : Delta) (ts : Int)
    (l : List SessionRow) (h1 : l.countP (fun s => s.sessionId == sid) = 1) :
    sumBy (fun s => s.totalTokensOutput) (sessionApplyDelta sid d ts l) =
      sumBy (fun s => s.totalTokensOutput) l + d.output := by
  rw [sessionApplyDelta, sumBy_updateWhere']
  simp only [add_sub_cancel_left]
  rw [sumBy_ite_const, h1]
  simp

theorem sumBy_sessionApplyDelta_cost (sid : String) (d : Delta) (ts : Int)
    (l : List SessionRow) (h1 : l.countP (fun s => s.sessionId == sid) = 1) :
    sumBy (fun s => s.totalCostUsd) (sessionApplyDelta sid d ts l) =
      sumBy (fun s => s.totalCostUsd) l + d.cost := by
  rw [sessionApplyDelta, sumBy_updateWhere']
  simp only [add_sub_cancel_left]
  rw [sumBy_ite_const, h1]
  simp

theorem sumBy_dailyApplyDelta_input (day : Int) (pid mid : String) (d : Delta)
    (l : List DailyRow)
    (h1 : l.countP (fun r => r.date == day && r.providerId == pid && r.modelId == mid) = 1) :
    sumBy (fun r => r.tokensInput) (dailyApplyDelta day pid mid d l) =
      sumBy (fun r => r.tokensInput) l + d.input := by
  rw [dailyApplyDelta, sumBy_updateWhere']
  simp only [add_sub_cancel_left]
  rw [sumBy_ite_const, h1]
  simp

theorem sumBy_dailyApplyDelta_output (day : Int) (pid mid : String) (d : Delta)
    (l : List DailyRow)
    (h1 : l.countP (fun r => r.date == day && r.providerId == pid && r.modelId == mid) = 1) :
    sumBy (fun r => r.tokensOutput) (dailyApplyDelta day pid mid d l) =
      sumBy (fun r => r.tokensOutput) l + d.output := by
  rw [dailyApplyDelta, sumBy_updateWhere']
  simp only [add_sub_cancel_left]
  rw [sumBy_ite_const, h1]
  simp

theorem sumBy_dailyApplyDelta_reasoning (day : Int) (pid mid : String) (d : Delta)
    (l : List DailyRow)
    (h1 : l.countP (fun r => r.date == day && r.providerId == pid && r.modelId == mid) = 1) :
    sumBy (fun r => r.tokensReasoning) (dailyApplyDelta day pid mid d l) =
      sumBy (fun r => r.tokensReasoning) l + d.reasoning := by
  rw [dailyApplyDelta, sumBy_updateWhere']
  simp only [add_sub_cancel_left]
  rw [sumBy_ite_const, h1]
  simp

theorem sumBy_dailyApplyDelta_cacheRead (day : Int) (pid mid : String) (d : Delta)
    (l : List DailyRow)
    (h1 : l.countP (fun r => r.date == day && r.providerId == pid && r.modelId == mid) = 1) :
    sumBy (fun r => r.tokensCacheRead) (dailyApplyDelta day pid mid d l) =
      sumBy (fun r => r.tokensCacheRead) l + d.cacheRead := by
  rw [dailyApplyDelta, sumBy_updateWhere']
  simp only [add_sub_cancel_left]
  rw [sumBy_ite_const, h1]
  simp

theorem sumBy_dailyApplyDelta_cacheWrite (day : Int) (pid mid : String) (d : Delta)
    (l : List DailyRow)
    (h1 : l.countP (fun r => r.date == day && r.providerId == pid && r.modelId == mid) = 1) :
    sumBy (fun r => r.tokensCacheWrite) (dailyApplyDelta day pid mid d l) =
      sumBy (fun r => r.tokensCacheWrite) l + d.cacheWrite := by
  rw [dailyApplyDelta, sumBy_updateWhere']
  simp only [add_sub_cancel_left]
  rw [sumBy_ite_const, h1]
  simp

theorem sumBy_dailyApplyDelta_cost (day : Int) (pid mid : String) (d : Delta)
    (l : List DailyRow)
    (h1 : l.countP (fun r => r.date == day && r.providerId == pid && r.modelId == mid) = 1) :
    sumBy (fun r => r.costUsd) (dailyApplyDelta day pid mid d l) =
      sumBy (fun r => r.costUsd) l + d.cost := by
  rw [dailyApplyDelta, sumBy_updateWhere']
  simp only [add_sub_cancel_left]
  rw [sumBy_ite_const, h1]
  simp

/-- Serial delivery of two request events for the same `messageId` into a
store not yet holding that message: the stored row ends at the second
event's measurements, and the Session and DailySummary totals increase by
exactly the second event's values (first report adds the first event's
values in full; the redelivery adds the — possibly negative — delta). -/
theorem request_pair_totals (parse : String → Option Int) (now : Int)
    (e1 e2 : ReqEvent) (db : DB)
    (hid1 : e2.messageId = e1.messageId) (hid2 : e2.sessionId = e1.sessionId)
    (hid3 : e2.providerId = e1.providerId) (hid4 : e2.modelId = e1.modelId)
    (hv1 : ¬(e1.messageId = "" ∨ e1.sessionId = "" ∨ e1.providerId = "" ∨ e1.modelId = ""))
    (hv2 : ¬(e2.messageId = "" ∨ e2.sessionId = "" ∨ e2.providerId = "" ∨ e2.modelId = ""))
    (hc1 : e1.createdAt = none) (hc2 : e2.createdAt = none)
    (hnone : db.requests.find? (fun r => r.messageId == e1.messageId) = none)
    (hdaily : db.daily.countP (fun r => r.date == dayOf now &&
      r.providerId == e1.providerId && r.modelId == e1.modelId) ≤ 1)
    (hsess : db.sessions.countP (fun s => s.sessionId == e1.sessionId) ≤ 1)
    (hcond : (deltaOf e2 (requestFresh parse e1 now)).cost ≠ 0 ∨
      (deltaOf e2 (requestFresh parse e1 now)).input ≠ 0 ∨
      (deltaOf e2 (requestFresh parse e1 now)).output ≠ 0) :
    ((runRequests parse [(now, e1), (now, e2)] db).requests.find?
        (fun r => r.messageId == e1.messageId)).map
        (fun r => (r.tokensInput, r.tokensOutput)) =
      some (e2.tokens.input, e2.tokens.output) ∧
    sumBy (fun s => s.totalTokensInput)
        (runRequests parse [(now, e1), (now, e2)] db).sessions =
      sumBy (fun s => s.totalTokensInput) db.sessions + e2.tokens.input ∧
    sumBy (fun s => s.totalTokensOutput)
        (runRequests parse [(now, e1), (now, e2)] db).sessions =
      sumBy (fun s => s.totalTokensOutput) db.sessions + e2.tokens.output ∧
    sumBy (fun d => d.tokensInput)
        (runRequests parse [(now, e1), (now, e2)] db).daily =
      sumBy (fun d => d.tokensInput) db.daily + e2.tokens.input ∧
    sumBy (fun d => d.tokensOutput)
        (runRequests parse [(now, e1), (now, e2)] db).daily =
      sumBy (fun d => d.tokensOutput) db.daily + e2.tokens.output := by
  have hts1 : tsOfReq parse now e1 = some now := by simp [tsOfReq, hc1]
  have hts2 : tsOfReq parse now e2 = some now := by simp [tsOfReq, hc2]
  have hrun : runRequests parse [(now, e1), (now, e2)] db =
      (processRequest parse noFail now e2
        (processRequest parse noFail now e1 db).2).2 := rfl
  have s1 := processRequest_shape parse now e1 db now hv1 hts1
  have hreqA := s1.2.1
  have haggA := s1.2.2.1 hnone
  have hfindA : (processRequest parse noFail now e1 db).2.requests.find?
      (fun r => r.messageId == e1.messageId) = some (requestFresh parse e1 now) := by
    rw [hreqA, find?_upsertBy]
    · rw [hnone]
    · exact fun x hx => hx
    · simp [requestFresh]
  have hfindA2 : (processRequest parse noFail now e1 db).2.requests.find?
      (fun r => r.messageId == e2.messageId) = some (requestFresh parse e1 now) := by
    rw [hid1]
    exact hfindA
  have s2 := processRequest_shape parse now e2
    (processRequest parse noFail now e1 db).2 now hv2 hts2
  have hreqB := s2.2.1
  have hdelta := (s2.2.2.2 (requestFresh parse e1 now) hfindA2).1 hcond
  have hcountS : (processRequest parse noFail now e1 db).2.sessions.countP
      (fun s => s.sessionId == e1.sessionId) = 1 := by
    rw [haggA.1, sessionApplyFull]
    refine countP_upsertBy_key _ _ _ ?_ ?_ db.sessions hsess
    · intro x hx
      rfl
    · simp
  have hcountD : (processRequest parse noFail now e1 db).2.daily.countP
      (fun r => r.date == dayOf now && r.providerId == e1.providerId &&
        r.modelId == e1.modelId) = 1 := by
    rw [haggA.2, dailyApplyFull]
    refine countP_upsertBy_key _ _ _ ?_ ?_ db.daily hdaily
    · intro x hx
      rfl
    · simp
  refine ⟨?_, ?_, ?_, ?_, ?_⟩
  · rw [hrun]
    have hfindB : (processRequest parse noFail now e2
        (processRequest parse noFail now e1 db).2).2.requests.find?
        (fun r => r.messageId == e2.messageId) =
        some (requestUpd parse e2 (requestFresh parse e1 now)) := by
      rw [hreqB, find?_upsertBy]
      · rw [hfindA2]
      · exact fun x hx => hx
      · simp [requestFresh]
    rw [hid1] at hfindB
    rw [hfindB]
    simp [requestUpd]
  · rw [hrun, hdelta.2, hid2, sumBy_sessionApplyDelta_input _ _ _ _ hcountS,
      haggA.1, sumBy_sessionApplyFull_input]
    simp [deltaOf, requestFresh]
  · rw [hrun, hdelta.2, hid2, sumBy_sessionApplyDelta_output _ _ _ _ hcountS,
      haggA.1, sumBy_sessionApplyFull_output]
    simp [deltaOf, requestFresh]
  · rw [hrun, hdelta.1, hid3, hid4, sumBy_dailyApplyDelta_input _ _ _ _ _ hcountD,
      haggA.2, sumBy_dailyApplyFull_input]
    simp [deltaOf, requestFresh]
  · rw [hrun, hdelta.1, hid3, hid4, sumBy_dailyApplyDelta_output _ _ _ _ _ hcountD,
      haggA.2, sumBy_dailyApplyFull_output]
    simp [deltaOf, requestFresh]

/-- Claim C4 (confirmed).  Delivering request events with tokens (50, 25)
and then (30, 15) for the same `messageId`, serially, into a store that
does not yet hold that message, leaves the stored Request row at
(30, 15), and leaves both the Session totals and the DailySummary totals
increased by exactly 30 input and 15 output tokens relative to their
state before either delivery — the negative delta is applied additively
and the aggregates match the final stored state. -/
theorem c4_negative_delta_tolerance (parse : String → Option Int) (now : Int)
    (db : DB) (mid sid pid modelid ag : String) (c : Int)
    (hv : ¬(mid = "" ∨ sid = "" ∨ pid = "" ∨ modelid = ""))
    (hnone : db.requests.find? (fun r => r.messageId == mid) = none)
    (hdaily : db.daily.countP (fun r => r.date == dayOf now &&
      r.providerId == pid && r.modelId == modelid) ≤ 1)
    (hsess : db.sessions.countP (fun s => s.sessionId == sid) ≤ 1) :
    ((runRequests parse [(now, c4event mid sid pid modelid ag 50 25 c),
        (now, c4event mid sid pid modelid ag 30 15 c)] db).requests.find?
        (fun r => r.messageId == mid)).map
        (fun r => (r.tokensInput, r.tokensOutput)) = some ((30 : Int), (15 : Int)) ∧
    sumBy (fun s => s.totalTokensInput)
        (runRequests parse [(now, c4event mid sid pid modelid ag 50 25 c),
          (now, c4event mid sid pid modelid ag 30 15 c)] db).sessions =
      sumBy (fun s => s.totalTokensInput) db.sessions + 30 ∧
    sumBy (fun s => s.totalTokensOutput)
        (runRequests parse [(now, c4event mid sid pid modelid ag 50 25 c),
          (now, c4event mid sid pid modelid ag 30 15 c)] db).sessions =
      sumBy (fun s => s.totalTokensOutput) db.sessions + 15 ∧
    sumBy (fun d => d.tokensInput)
        (runRequests parse [(now, c4event mid sid pid modelid ag 50 25 c),
          (now, c4event mid sid pid modelid ag 30 15 c)] db).daily =
      sumBy (fun d => d.tokensInput) db.daily + 30 ∧
    sumBy (fun d => d.tokensOutput)
        (runRequests parse [(now, c4event mid sid pid modelid ag 50 25 c),
          (now, c4event mid sid pid modelid ag 30 15 c)] db).daily =
      sumBy (fun d => d.tokensOutput) db.daily + 15 := by
  have h := request_pair_totals parse now
    (c4event mid sid pid modelid ag 50 25 c)
    (c4event mid sid pid modelid ag 30 15 c) db
    rfl rfl rfl rfl hv hv rfl rfl hnone hdaily hsess
    (Or.inr (Or.inl (by norm_num [deltaOf, requestFresh, c4event])))
  simpa [c4event] using h

/-- Witness for C4 at a concrete pair of deliveries into the empty store. -/
theorem c4_witness :
    ((runRequests parseNone [(0, c4event "m4" "s" "p" "d" "a" 50 25 7),
        (0, c4event "m4" "s" "p" "d" "a" 30 15 7)] emptyDB).requests.find?
        (fun r => r.messageId == "m4")).map
        (fun r => (r.tokensInput, r.tokensOutput)) = some ((30 : Int), (15 : Int)) ∧
    sumBy (fun s => s.totalTokensInput)
        (runRequests parseNone [(0, c4event "m4" "s" "p" "d" "a" 50 25 7),
          (0, c4event "m4" "s" "p" "d" "a" 30 15 7)] emptyDB).sessions =
      sumBy (fun s => s.totalTokensInput) emptyDB.sessions + 30 ∧
    sumBy (fun s => s.totalTokensOutput)
        (runRequests parseNone [(0, c4event "m4" "s" "p" "d" "a" 50 25 7),
          (0, c4event "m4" "s" "p" "d" "a" 30 15 7)] emptyDB).sessions =
      sumBy (fun s => s.totalTokensOutput) emptyDB.sessions + 15 ∧
    sumBy (fun d => d.tokensInput)
        (runRequests parseNone [(0, c4event "m4" "s" "p" "d" "a" 50 25 7),
          (0, c4event "m4" "s" "p" "d" "a" 30 15 7)] emptyDB).daily =
      sumBy (fun d => d.tokensInput) emptyDB.daily + 30 ∧
    sumBy (fun d => d.tokensOutput)
        (runRequests parseNone [(0, c4event "m4" "s" "p" "d" "a" 50 25 7),
          (0, c4event "m4" "s" "p" "d" "a" 30 15 7)] emptyDB).daily =
      sumBy (fun d => d.tokensOutput) emptyDB.daily + 15 :=
  c4_negative_delta_tolerance parseNone 0 emptyDB "m4" "s" "p" "d" "a" 7
    (by decide) rfl (by decide) (by decide)

/-- Witness for C6: the insert-unless-exists conjunct at a concrete event
and store. -/
theorem c6_witness :
    (processText parseNone noFail 0 c6event c5db).2.textParts =
      (if (c5db.textParts.find?
            (fun r => r.messageId == c6event.messageId && r.partId == c6event.partId)).isSome
        then c5db.textParts
        else c5db.textParts ++
          [{ sessionId := c6event.sessionId, messageId := c6event.messageId
             partId := c6event.partId, text := c6event.text
             createdAt := coerceDate parseNone 0 c6event.createdAt }]) :=
  (c6_text_part_accumulation parseNone 0 c6event c5db (by decide)).1

theorem consistent_fresh (parse : String → Option Int) (e : ReqEvent) (t : Int)
    (db db' : DB)
    (hreq : db'.requests = upsertBy (fun r => r.messageId == e.messageId)
      (requestUpd parse e) (requestFresh parse e t) db.requests)
    (hses : db'.sessions = sessionApplyFull e t db.sessions)
    (hdai : db'.daily = dailyApplyFull e (dayOf t) db.daily)
    (hnone : db.requests.find? (fun r => r.messageId == e.messageId) = none)
    (hcons : Consistent db) : Consistent db' := by
  obtain ⟨c1, c2, c3, c4, c5, c6, c7, c8, c9⟩ := hcons
  refine ⟨?_, ?_, ?_, ?_, ?_, ?_, ?_, ?_, ?_⟩
  · rw [hdai, sumBy_dailyApplyFull_input, c1, hreq, sumBy_upsertBy, hnone]
    simp [requestFresh]
  · rw [hdai, sumBy_dailyApplyFull_output, c2, hreq, sumBy_upsertBy, hnone]
    simp [requestFresh]
  · rw [hdai, sumBy_dailyApplyFull_reasoning, c3, hreq, sumBy_upsertBy, hnone]
    simp [requestFresh]
  · rw [hdai, sumBy_dailyApplyFull_cacheRead, c4, hreq, sumBy_upsertBy, hnone]
    simp [requestFresh]
  · rw [hdai, sumBy_dailyApplyFull_cacheWrite, c5, hreq, sumBy_upsertBy, hnone]
    simp [requestFresh]
  · rw [hdai, sumBy_dailyApplyFull_cost, c6, hreq, sumBy_upsertBy, hnone]
    simp [requestFresh]
  · rw [hses, sumBy_sessionApplyFull_input, c7, hreq, sumBy_upsertBy, hnone]
    simp [requestFresh]
  · rw [hses, sumBy_sessionApplyFull_output, c8, hreq, sumBy_upsertBy, hnone]
    simp [requestFresh]
  · rw [hses, sumBy_sessionApplyFull_cost, c9, hreq, sumBy_upsertBy, hnone]
    simp [requestFresh]

theorem consistent_delta (parse : String → Option Int) (e : ReqEvent) (t : Int)
    (old : RequestRow) (db db' : DB)
    (hreq : db'.requests = upsertBy (fun r => r.messageId == e.messageId)
      (requestUpd parse e) (requestFresh parse e t) db.requests)
    (hses : db'.sessions = sessionApplyDelta e.sessionId (deltaOf e old) t db.sessions)
    (hdai : db'.daily = dailyApplyDelta (dayOf t) e.providerId e.modelId
      (deltaOf e old) db.daily)
    (hsome : db.requests.find? (fun r => r.messageId == e.messageId) = some old)
    (hcountD : db.daily.countP (fun d => d.date == dayOf t &&
      d.providerId == e.providerId && d.modelId == e.modelId) = 1)
    (hcountS : db.sessions.countP (fun s => s.sessionId == e.sessionId) = 1)
    (hcons : Consistent db) : Consistent db' := by
  obtain ⟨c1, c2, c3, c4, c5, c6, c7, c8, c9⟩ := hcons
  refine ⟨?_, ?_, ?_, ?_, ?_, ?_, ?_, ?_, ?_⟩
  · rw [hdai, sumBy_dailyApplyDelta_input _ _ _ _ _ hcountD, c1, hreq,
      sumBy_upsertBy, hsome]
    simp [requestUpd, deltaOf]
  · rw [hdai, sumBy_dailyApplyDelta_output _ _ _ _ _ hcountD, c2, hreq,
      sumBy_upsertBy, hsome]
    simp [requestUpd, deltaOf]
  · rw [hdai, sumBy_dailyApplyDelta_reasoning _ _ _ _ _ hcountD, c3, hreq,
      sumBy_upsertBy, hsome]
    simp [requestUpd, deltaOf]
  · rw [hdai, sumBy_dailyApplyDelta_cacheRead _ _ _ _ _ hcountD, c4, hreq,
      sumBy_upsertBy, hsome]
    simp [requestUpd, deltaOf]
  · rw [hdai, sumBy_dailyApplyDelta_cacheWrite _ _ _ _ _ hcountD, c5, hreq,
      sumBy_upsertBy, hsome]
    simp [requestUpd, deltaOf]
  · rw [hdai, sumBy_dailyApplyDelta_cost _ _ _ _ _ hcountD, c6, hreq,
      sumBy_upsertBy, hsome]
    simp [requestUpd, deltaOf]
  · rw [hses, sumBy_sessionApplyDelta_input _ _ _ _ hcountS, c7, hreq,
      sumBy_upsertBy, hsome]
    simp [requestUpd, deltaOf]
  · rw [hses, sumBy_sessionApplyDelta_output _ _ _ _ hcountS, c8, hreq,
      sumBy_upsertBy, hsome]
    simp [requestUpd, deltaOf]
  · rw [hses, sumBy_sessionApplyDelta_cost _ _ _ _ hcountS, c9, hreq,
      sumBy_upsertBy, hsome]
    simp [requestUpd, deltaOf]

theorem consistent_skip (parse : String → Option Int) (e : ReqEvent) (t : Int)
    (old : RequestRow) (db db' : DB)
    (hreq : db'.requests = upsertBy (fun r => r.messageId == e.messageId)
      (requestUpd parse e) (requestFresh parse e t) db.requests)
    (hses : db'.sessions = db.sessions)
    (hdai : db'.daily = db.daily)
    (hsome : db.requests.find? (fun r => r.messageId == e.messageId) = some old)
    (hzero : reqM6 e = rowM6 old)
    (hcons : Consistent db) : Consistent db' := by
  obtain ⟨hz1, hz2, hz3, hz4, hz5, hz6⟩ :
      e.tokens.input = old.tokensInput ∧ e.tokens.output = old.tokensOutput ∧
      e.tokens.reasoning = old.tokensReasoning ∧
      e.tokens.cacheRead = old.tokensCacheRead ∧
      e.tokens.cacheWrite = old.tokensCacheWrite ∧ e.cost = old.costUsd := by
    simpa [reqM6, rowM6] using hzero
  obtain ⟨c1, c2, c3, c4, c5, c6, c7, c8, c9⟩ := hcons
  refine ⟨?_, ?_, ?_, ?_, ?_, ?_, ?_, ?_, ?_⟩
  · rw [hdai, c1, hreq, sumBy_upsertBy, hsome]
    simp [requestUpd, hz1]
  · rw [hdai, c2, hreq, sumBy_upsertBy, hsome]
    simp [requestUpd, hz2]
  · rw [hdai, c3, hreq, sumBy_upsertBy, hsome]
    simp [requestUpd, hz3]
  · rw [hdai, c4, hreq, sumBy_upsertBy, hsome]
    simp [requestUpd, hz4]
  · rw [hdai, c5, hreq, sumBy_upsertBy, hsome]
    simp [requestUpd, hz5]
  · rw [hdai, c6, hreq, sumBy_upsertBy, hsome]
    simp [requestUpd, hz6]
  · rw [hses, c7, hreq, sumBy_upsertBy, hsome]
    simp [requestUpd, hz1]
  · rw [hses, c8, hreq, sumBy_upsertBy, hsome]
    simp [requestUpd, hz2]
  · rw [hses, c9, hreq, sumBy_upsertBy, hsome]
    simp [requestUpd, hz6]

theorem uniqueKeys_eqCounts (db db' : DB)
    (hd : ∀ day : Int, ∀ pid mid : String,
      db'.daily.countP (fun d => d.date == day && d.providerId == pid &&
        d.modelId == mid) =
      db.daily.countP (fun d => d.date == day && d.providerId == pid &&
        d.modelId == mid))
    (hs : ∀ sid : String,
      db'.sessions.countP (fun s => s.sessionId == sid) =
      db.sessions.countP (fun s => s.sessionId == sid))
    (hU : UniqueKeys db) : UniqueKeys db' := by
  constructor
  · intro day pid mid
    rw [hd day pid mid]
    exact hU.1 day pid mid
  · intro sid
    rw [hs sid]
    exact hU.2 sid

theorem countP_upsertBy_le_one {α : Type} (p q : α → Bool) (upd : α → α)
    (fresh : α) (hq : ∀ x, p x = true → q (upd x) = q x)
    (hcompat : q fresh = true → ∀ x, q x = p x) (l : List α)
    (hU : l.countP q ≤ 1) : (upsertBy p upd fresh l).countP q ≤ 1 := by
  rw [countP_upsertBy q p upd fresh hq l]
  cases hfind : l.find? p with
  | some x =>
    show l.countP q + 0 ≤ 1
    omega
  | none =>
    by_cases hqf : q fresh = true
    · have hzero : l.countP q = 0 :=
        (List.countP_congr (fun a _ => by rw [hcompat hqf a])).trans
          ((countP_zero_iff_find?_none p l).mpr hfind)
      show l.countP q + (if q fresh = true then 1 else 0) ≤ 1
      rw [hzero]
      split <;> omega
    · show l.countP q + (if q fresh = true then 1 else 0) ≤ 1
      rw [if_neg hqf]
      omega

theorem le_countP_upsertBy {α : Type} (p q : α → Bool) (upd : α → α)
    (fresh : α) (hq : ∀ x, p x = true → q (upd x) = q x) (l : List α)
    (h1 : 1 ≤ l.countP q) : 1 ≤ (upsertBy p upd fresh l).countP q := by
  rw [countP_upsertBy q p upd fresh hq l]
  cases hfind : l.find? p with
  | some x =>
    show 1 ≤ l.countP q + 0
    omega
  | none =>
    show 1 ≤ l.countP q + (if q fresh = true then 1 else 0)
    split <;> omega

theorem one_le_countP_upsertBy_self {α : Type} (p : α → Bool) (upd : α → α)
    (fresh : α) (hq : ∀ x, p x = true → p (upd x) = p x) (hf : p fresh = true)
    (l : List α) : 1 ≤ (upsertBy p upd fresh l).countP p := by
  rw [countP_upsertBy p p upd fresh hq l]
  cases hfind : l.find? p with
  | some x =>
    have := find?_some_le_countP p l x hfind
    show 1 ≤ l.countP p + 0
    omega
  | none =>
    show 1 ≤ l.countP p + (if p fresh = true then 1 else 0)
    rw [if_pos hf]
    omega

theorem uniqueKeys_fresh (e : ReqEvent) (t : Int) (db db' : DB)
    (hses : db'.sessions = sessionApplyFull e t db.sessions)
    (hdai : db'.daily = dailyApplyFull e (dayOf t) db.daily)
    (hU : UniqueKeys db) : UniqueKeys db' := by
  constructor
  · intro day pid mid
    rw [hdai, dailyApplyFull]
    refine countP_upsertBy_le_one _ _ _ _ ?_ ?_ db.daily (hU.1 day pid mid)
    · intro x hx
      rfl
    · intro hqf
      simp only [Bool.and_eq_true, beq_iff_eq] at hqf
      obtain ⟨⟨h1, h2⟩, h3⟩ := hqf
      subst h1
      subst h2
      subst h3
      intro x
      rfl
  · intro sid
    rw [hses, sessionApplyFull]
    refine countP_upsertBy_le_one _ _ _ _ ?_ ?_ db.sessions (hU.2 sid)
    · intro x hx
      rfl
    · intro hqf
      simp only [beq_iff_eq] at hqf
      subst hqf
      intro x
      rfl

theorem covered_fresh (parse : String → Option Int) (e : ReqEvent) (t : Int)
    (db db' : DB)
    (hreq : db'.requests = upsertBy (fun r => r.messageId == e.messageId)
      (requestUpd parse e) (requestFresh parse e t) db.requests)
    (hses : db'.sessions = sessionApplyFull e t db.sessions)
    (hdai : db'.daily = dailyApplyFull e (dayOf t) db.daily)
    (hnone : db.requests.find? (fun r => r.messageId == e.messageId) = none)
    (hCov : Covered db) : Covered db' := by
  constructor
  · intro r hr
    rw [hreq] at hr
    rcases mem_upsertBy _ _ _ db.requests r hr with ⟨_, rfl⟩ | ⟨x, hx, _⟩ | hmem
    · show 1 ≤ db'.daily.countP (fun d => d.date == dayOf t &&
        d.providerId == e.providerId && d.modelId == e.modelId)
      rw [hdai, dailyApplyFull]
      refine one_le_countP_upsertBy_self _ _ _ ?_ ?_ db.daily
      · intro x hx
        rfl
      · simp
    · rw [hnone] at hx
      cases hx
    · rw [hdai, dailyApplyFull]
      refine le_countP_upsertBy _ _ _ _ ?_ db.daily (hCov.1 r hmem)
      intro x hx
      rfl
  · intro r hr
    rw [hreq] at hr
    rcases mem_upsertBy _ _ _ db.requests r hr with ⟨_, rfl⟩ | ⟨x, hx, _⟩ | hmem
    · show 1 ≤ db'.sessions.countP (fun s => s.sessionId == e.sessionId)
      rw [hses, sessionApplyFull]
      refine one_le_countP_upsertBy_self _ _ _ ?_ ?_ db.sessions
      · intro x hx
        rfl
      · simp
    · rw [hnone] at hx
      cases hx
    · rw [hses, sessionApplyFull]
      refine le_countP_upsertBy _ _ _ _ ?_ db.sessions (hCov.2 r hmem)
      intro x hx
      rfl

theorem covered_existing (parse : String → Option Int) (e : ReqEvent) (t : Int)
    (old : RequestRow) (db db' : DB)
    (hreq : db'.requests = upsertBy (fun r => r.messageId == e.messageId)
      (requestUpd parse e) (requestFresh parse e t) db.requests)
    (hsome : db.requests.find? (fun r => r.messageId == e.messageId) = some old)
    (hd : ∀ day : Int, ∀ pid mid : String,
      db'.daily.countP (fun d => d.date == day && d.providerId == pid &&
        d.modelId == mid) =
      db.daily.countP (fun d => d.date == day && d.providerId == pid &&
        d.modelId == mid))
    (hs : ∀ sid : String,
      db'.sessions.countP (fun s => s.sessionId == sid) =
      db.sessions.countP (fun s => s.sessionId == sid))
    (hCov : Covered db) : Covered db' := by
  have holdmem := List.mem_of_find?_eq_some hsome
  constructor
  · intro r hr
    rw [hreq] at hr
    rcases mem_upsertBy _ _ _ db.requests r hr with ⟨hfind, _⟩ | ⟨x, hx, rfl⟩ | hmem
    · rw [hsome] at hfind
      cases hfind
    · have hxold : x = old := by
        rw [hsome] at hx
        exact (Option.some_injective _ hx).symm
      subst hxold
      show 1 ≤ db'.daily.countP (fun d => d.date == dayOf x.createdAt &&
        d.providerId == x.providerId && d.modelId == x.modelId)
      rw [hd]
      exact hCov.1 x (List.mem_of_find?_eq_some hx)
    · rw [hd]
      exact hCov.1 r hmem
  · intro r hr
    rw [hreq] at hr
    rcases mem_upsertBy _ _ _ db.requests r hr with ⟨hfind, _⟩ | ⟨x, hx, rfl⟩ | hmem
    · rw [hsome] at hfind
      cases hfind
    · have hxold : x = old := by
        rw [hsome] at hx
        exact (Option.some_injective _ hx).symm
      subst hxold
      show 1 ≤ db'.sessions.countP (fun s => s.sessionId == x.sessionId)
      rw [hs]
      exact hCov.2 x (List.mem_of_find?_eq_some hx)
    · rw [hs]
      exact hCov.2 r hmem

theorem origin_step (parse : String → Option Int)
    (steps : List (Int × ReqEvent)) (p : Int × ReqEvent) (t : Int) (db db' : DB)
    (hreq : db'.requests = upsertBy (fun r => r.messageId == p.2.messageId)
      (requestUpd parse p.2) (requestFresh parse p.2 t) db.requests)
    (ht : stepTs parse p = some t)
    (hOR : Origin parse steps db)
    (hSK : SameKeys parse (steps ++ [p])) :
    Origin parse (steps ++ [p]) db' := by
  have hpmem : p ∈ steps ++ [p] :=
    List.mem_append_right _ (List.mem_singleton_self p)
  intro r hr
  rw [hreq] at hr
  rcases mem_upsertBy _ _ _ db.requests r hr with ⟨_, rfl⟩ | ⟨x, hx, rfl⟩ | hmem
  · exact ⟨p, hpmem, rfl, rfl, rfl, rfl, ⟨t, ht, rfl⟩, rfl⟩
  · obtain ⟨q, hqmem, hq1, hq2, hq3, hq4, ⟨tq, htq, hdayq⟩, hq6⟩ :=
      hOR x (List.mem_of_find?_eq_some hx)
    have hxm : x.messageId = p.2.messageId := by
      simpa using List.find?_some hx
    have hmid : p.2.messageId = q.2.messageId := by
      rw [hq1, hxm]
    have hsk := hSK p hpmem q (List.mem_append_left _ hqmem) hmid
    refine ⟨p, hpmem, ?_, ?_, ?_, ?_, ?_, ?_⟩
    · exact hxm.symm
    · exact hsk.1.trans hq2
    · exact hsk.2.1.trans hq3
    · exact hsk.2.2.1.trans hq4
    · refine ⟨t, ht, ?_⟩
      have hmap := hsk.2.2.2
      rw [ht, htq] at hmap
      have hdt : dayOf t = dayOf tq := Option.some_injective _ hmap
      exact hdt.trans hdayq
    · rfl
  · obtain ⟨q, hqmem, rest⟩ := hOR r hmem
    exact ⟨q, List.mem_append_left _ hqmem, rest⟩

/-- One fault-free delivery preserves the inductive invariant of the
Delta Engine run, given the key-agreement and measurement-determinacy
hypotheses over the extended step list. -/
theorem strongInv_step (parse : String → Option Int)
    (steps : List (Int × ReqEvent)) (p : Int × ReqEvent) (db : DB)
    (H0 : AllParse parse (steps ++ [p]))
    (H1 : SameKeys parse (steps ++ [p]))
    (H2 : Determined (steps ++ [p]))
    (hInv : StrongInv parse steps db) :
    StrongInv parse (steps ++ [p]) (processRequest parse noFail p.1 p.2 db).2 := by
  obtain ⟨hC, hU, hCov, hOR⟩ := hInv
  have hpmem : p ∈ steps ++ [p] :=
    List.mem_append_right _ (List.mem_singleton_self p)
  by_cases hv : p.2.messageId = "" ∨ p.2.sessionId = "" ∨ p.2.providerId = "" ∨
      p.2.modelId = ""
  · have heq : processRequest parse noFail p.1 p.2 db = (.validationError, db) := by
      simp only [processRequest]
      exact if_pos hv
    rw [heq]
    exact ⟨hC, hU, hCov, fun r hr => (hOR r hr).imp
      (fun q hq => ⟨List.mem_append_left _ hq.1, hq.2⟩)⟩
  · obtain ⟨t, ht⟩ := Option.isSome_iff_exists.mp (H0 p hpmem)
    have hshape := processRequest_shape parse p.1 p.2 db t hv ht
    cases hex : db.requests.find? (fun r => r.messageId == p.2.messageId) with
    | none =>
      have hagg := hshape.2.2.1 hex
      refine ⟨?_, ?_, ?_, ?_⟩
      · exact consistent_fresh parse p.2 t db _ hshape.2.1 hagg.1 hagg.2 hex hC
      · exact uniqueKeys_fresh p.2 t db _ hagg.1 hagg.2 hU
      · exact covered_fresh parse p.2 t db _ hshape.2.1 hagg.1 hagg.2 hex hCov
      · exact origin_step parse steps p t db _ hshape.2.1 ht hOR H1
    | some old =>
      have holdmem := List.mem_of_find?_eq_some hex
      obtain ⟨q, hqmem, hq1, hq2, hq3, hq4, ⟨tq, htq, hdayq⟩, hq6⟩ := hOR old holdmem
      have hxm : old.messageId = p.2.messageId := by
        simpa using List.find?_some hex
      have hmid : p.2.messageId = q.2.messageId := by
        rw [hq1, hxm]
      have hsk := H1 p hpmem q (List.mem_append_left _ hqmem) hmid
      have hdayt : dayOf t = dayOf old.createdAt := by
        have hmap := hsk.2.2.2
        rw [ht, htq] at hmap
        exact (Option.some_injective _ hmap).trans hdayq
      have hpv : p.2.providerId = old.providerId := hsk.2.1.trans hq3
      have hmd : p.2.modelId = old.modelId := hsk.2.2.1.trans hq4
      have hps : p.2.sessionId = old.sessionId := hsk.1.trans hq2
      have hkeyD : db.daily.countP (fun d => d.date == dayOf t &&
          d.providerId == p.2.providerId && d.modelId == p.2.modelId) = 1 := by
        rw [hdayt, hpv, hmd]
        have ha := hCov.1 old holdmem
        have hb := hU.1 (dayOf old.createdAt) old.providerId old.modelId
        omega
      have hkeyS : db.sessions.countP
          (fun s => s.sessionId == p.2.sessionId) = 1 := by
        rw [hps]
        have ha := hCov.2 old holdmem
        have hb := hU.2 old.sessionId
        omega
      by_cases hc : (deltaOf p.2 old).cost ≠ 0 ∨ (deltaOf p.2 old).input ≠ 0 ∨
          (deltaOf p.2 old).output ≠ 0
      · have hagg := (hshape.2.2.2 old hex).1 hc
        have hdCnt : ∀ day : Int, ∀ pid mid : String,
            (processRequest parse noFail p.1 p.2 db).2.daily.countP
              (fun d => d.date == day && d.providerId == pid && d.modelId == mid) =
            db.daily.countP
              (fun d => d.date == day && d.providerId == pid && d.modelId == mid) := by
          intro day pid mid
          rw [hagg.1, dailyApplyDelta]
          refine countP_updateWhere _ _ _ ?_ db.daily
          intro x hx
          rfl
        have hsCnt : ∀ sid : String,
            (processRequest parse noFail p.1 p.2 db).2.sessions.countP
              (fun s => s.sessionId == sid) =
            db.sessions.countP (fun s => s.sessionId == sid) := by
          intro sid
          rw [hagg.2, sessionApplyDelta]
          refine countP_updateWhere _ _ _ ?_ db.sessions
          intro x hx
          rfl
        refine ⟨?_, ?_, ?_, ?_⟩
        · exact consistent_delta parse p.2 t old db _ hshape.2.1 hagg.2 hagg.1
            hex hkeyD hkeyS hC
        · exact uniqueKeys_eqCounts db _ hdCnt hsCnt hU
        · exact covered_existing parse p.2 t old db _ hshape.2.1 hex hdCnt hsCnt hCov
        · exact origin_step parse steps p t db _ hshape.2.1 ht hOR H1
      · have hagg := (hshape.2.2.2 old hex).2 hc
        have hq6' : q.2.tokens.input = old.tokensInput ∧
            q.2.tokens.output = old.tokensOutput ∧
            q.2.tokens.reasoning = old.tokensReasoning ∧
            q.2.tokens.cacheRead = old.tokensCacheRead ∧
            q.2.tokens.cacheWrite = old.tokensCacheWrite ∧
            q.2.cost = old.costUsd := by
          simpa [reqM6, rowM6] using hq6
        have hcz := hc
        push_neg at hcz
        simp only [deltaOf] at hcz
        obtain ⟨hzc, hzi, hzo⟩ := hcz
        rw [sub_eq_zero] at hzc hzi hzo
        have hm3 : reqM3 p.2 = reqM3 q.2 := by
          simp only [reqM3, Prod.mk.injEq]
          exact ⟨hzc.trans hq6'.2.2.2.2.2.symm, hzi.trans hq6'.1.symm,
            hzo.trans hq6'.2.1.symm⟩
        have hm6 := H2 p hpmem q (List.mem_append_left _ hqmem) hmid hm3
        have hzero : reqM6 p.2 = rowM6 old := hm6.trans hq6
        have hdCnt : ∀ day : Int, ∀ pid mid : String,
            (processRequest parse noFail p.1 p.2 db).2.daily.countP
              (fun d => d.date == day && d.providerId == pid && d.modelId == mid) =
            db.daily.countP
              (fun d => d.date == day && d.providerId == pid && d.modelId == mid) := by
          intro day pid mid
          rw [hagg.1]
        have hsCnt : ∀ sid : String,
            (processRequest parse noFail p.1 p.2 db).2.sessions.countP
              (fun s => s.sessionId == sid) =
            db.sessions.countP (fun s => s.sessionId == sid) := by
          intro sid
          rw [hagg.2]
        refine ⟨?_, ?_, ?_, ?_⟩
        · exact consistent_skip parse p.2 t old db _ hshape.2.1 hagg.2 hagg.1
            hex hzero hC
        · exact uniqueKeys_eqCounts db _ hdCnt hsCnt hU
        · exact covered_existing parse p.2 t old db _ hshape.2.1 hex hdCnt hsCnt hCov
        · exact origin_step parse steps p t db _ hshape.2.1 ht hOR H1

/-- The invariant holds after any serial fault-free run from the empty
store. -/
theorem strongInv_run (parse : String → Option Int)
    (steps : List (Int × ReqEvent))
    (H0 : AllParse parse steps) (H1 : SameKeys parse steps)
    (H2 : Determined steps) :
    StrongInv parse steps (runRequests parse steps emptyDB) := by
  induction steps using List.reverseRecOn with
  | nil =>
    refine ⟨?_, ?_, ?_, ?_⟩
    · exact ⟨rfl, rfl, rfl, rfl, rfl, rfl, rfl, rfl, rfl⟩
    · exact ⟨fun day pid mid => by simp [runRequests, emptyDB],
        fun sid => by simp [runRequests, emptyDB]⟩
    · exact ⟨fun r hr => absurd hr (by simp [runRequests, emptyDB]),
        fun r hr => absurd hr (by simp [runRequests, emptyDB])⟩
    · exact fun r hr => absurd hr (by simp [runRequests, emptyDB])
  | append_singleton l p ih =>
    have hrun : runRequests parse (l ++ [p]) emptyDB =
        (processRequest parse noFail p.1 p.2 (runRequests parse l emptyDB)).2 := by
      simp [runRequests, List.foldl_append]
    rw [hrun]
    refine strongInv_step parse l p (runRequests parse l emptyDB) H0 H1 H2 ?_
    refine ih ?_ ?_ ?_
    · exact fun q hq => H0 q (List.mem_append_left _ hq)
    · exact fun a ha b hb hm =>
        H1 a (List.mem_append_left _ ha) b (List.mem_append_left _ hb) hm
    · exact fun a ha b hb hm =>
        H2 a (List.mem_append_left _ ha) b (List.mem_append_left _ hb) hm

/-- Counterexample to C1 as stated: two successfully processed request
events for the same `messageId` that differ only in reasoning tokens
(10, then 20) leave the store inconsistent — the Request rows sum to 20
reasoning tokens while DailySummary sums to 10, because the skip test
ignores the reasoning delta. -/
theorem c1_counterexample :
    (processRequest parseNone noFail 0 c2e1 emptyDB).1 = .ok ∧
    (processRequest parseNone noFail 0 c2e2 c2db).1 = .ok ∧
    ¬ Consistent (runRequests parseNone [(0, c2e1), (0, c2e2)] emptyDB) := by
  decide

/-- Claim C1 amended.  After any finite serial sequence of request
deliveries into an empty store — each with a usable timestamp, with all
deliveries of one `messageId` agreeing on the session, provider, model,
and calendar day, and with the (cost, input, output) triple determining
the remaining three counters among deliveries of one `messageId` — every
tracked counter sums to the same value over the DailySummary rows and
over the final Request rows, and the Session running totals agree as
well.  (Without the last condition a redelivery changing only reasoning
or cache counters is skipped and the sums diverge; without the key
agreement the delta update can target a missing row.) -/
theorem c1_cross_aggregate_consistency_amended (parse : String → Option Int)
    (steps : List (Int × ReqEvent))
    (H0 : AllParse parse steps) (H1 : SameKeys parse steps)
    (H2 : Determined steps) :
    Consistent (runRequests parse steps emptyDB) :=
  (strongInv_run parse steps H0 H1 H2).1

/-- Witness for the amended C1: a duplicate delivery of one concrete
event satisfies the hypotheses and yields a consistent store. -/
theorem c1_witness :
    Consistent (runRequests parseNone [(0, c2e1), (0, c2e1)] emptyDB) :=
  c1_cross_aggregate_consistency_amended parseNone [(0, c2e1), (0, c2e1)]
    (by decide) (by decide) (by decide)

end MySetup
